import Mathlib

/-!
Shallow embedding of the billing allowance ledger
(`apps/api/app/services/billing_service.py`, `apps/api/app/services/usage_service.py`,
`apps/api/app/models/billing.py`).

Timestamps are modelled as integers (seconds); `oneDay` stands for
`timedelta(days=1)`.  Database rows are lists of records; row ids are natural
numbers standing for the uuid primary keys.  SQL `ORDER BY expires_at ASC NULLS
LAST, created_at ASC` is modelled by `List.insertionSort` over the
corresponding key, and SQL filtering by `List.filter`.  Mutating a fetched row
and `db.add`-ing it back is modelled by applying an id-keyed update list to the
row list.  Python exceptions are modelled by `Except`-style results paired with
the state at the moment the exception is raised (the service never rolls
deductions back itself).
-/

namespace Billing

abbrev Time := Int

/-- `timedelta(days=1)` in seconds. -/
def oneDay : Time := 86400

/-- `AllowanceType` in `models/billing.py` (`BC`, `RC`, `Usage`). -/
inductive CreditType
  | BC
  | RC
  | USAGE
deriving DecidableEq, Repr

/-- `RolloverPolicy` in `models/billing.py` (`none`, `1_cycle`, `annual`). -/
inductive RolloverPolicy
  | NONE
  | ONE_CYCLE
  | ANNUAL
deriving DecidableEq, Repr

/-- `OverageChargeStatus` in `models/billing.py`. -/
inductive OverageChargeStatus
  | PENDING
  | INVOICED
  | PAID
  | WAIVED
deriving DecidableEq, Repr

/-- `SubscriptionStatus` in `models/billing.py`. -/
inductive SubscriptionStatus
  | TRIALING
  | ACTIVE
  | PAST_DUE
  | CANCELED
deriving DecidableEq, Repr

/-- A row of the `allowances` table (the fields the ledger logic reads). -/
structure Allowance where
  aid : Nat
  planId : Option Nat
  ctype : CreditType
  total : Int
  used : Int
  rolloverPolicy : RolloverPolicy
  expiresAt : Option Time
  createdAt : Time
deriving DecidableEq, Repr

/-- A row of the `rollover_buckets` table. -/
structure RolloverBucket where
  bid : Nat
  allowanceId : Nat
  remain : Int
  expiresAt : Option Time
  createdAt : Time
deriving DecidableEq, Repr

/-- A row of the `consumption_events` table (the fields the ledger writes). -/
structure ConsumptionEvent where
  eid : Nat
  allowanceId : Option Nat
  type : String
  amount : Int
  actionHash : String
  autofixApplied : Bool
  paygChargeId : Option Nat
deriving DecidableEq, Repr

/-- A row of the `overage_charges` table. -/
structure OverageCharge where
  oid : Nat
  metric : CreditType
  amount : Int
  status : OverageChargeStatus
deriving DecidableEq, Repr

/-- A row of the `allowance_daily_autofix` table (one per user and date key). -/
structure AllowanceDailyAutofix where
  dateKey : String
  consumed : Int
  limit : Int
deriving DecidableEq, Repr

/-- The `user_subscriptions` row joined with its `plans` row, as the
consumption path reads it (`subscription.plan.name`, `payg_enabled`,
`metadata_json.get("autofix_limit")`). -/
structure UserSubscription where
  planId : Nat
  planName : String
  status : SubscriptionStatus
  paygEnabled : Bool
  isPrimary : Bool
  autofixLimitOverride : Option Int
  currentPeriodStart : Time
  currentPeriodEnd : Option Time
  trialEndsAt : Option Time
deriving DecidableEq, Repr

/-- A `plans` row as read by `activate_plan`. -/
structure Plan where
  pid : Nat
  name : String
  bcMonthly : Int
  rcMonthly : Int
  usageBonusRate : Option Rat
  trialDays : Int
  paygEnabled : Bool
deriving DecidableEq, Repr

/-- The per-user slice of the transactional store that the ledger touches. -/
structure LedgerState where
  allowances : List Allowance
  buckets : List RolloverBucket
  events : List ConsumptionEvent
  charges : List OverageCharge
  autofixRecords : List AllowanceDailyAutofix
  subscription : Option UserSubscription
deriving DecidableEq, Repr

/-- Python `str.lower()` (character-wise lowercasing, as used for the
`plan.name.lower() == "free"` check). -/
def pyLower (s : String) : String :=
  String.mk (s.data.map Char.toLower)

/-- `expires_at IS NULL OR expires_at > now`. -/
def notExpired (e : Option Time) (now : Time) : Bool :=
  match e with
  | none => true
  | some t => decide (now < t)

/-- Sort key for `ORDER BY expires_at ASC NULLS LAST, created_at ASC`:
`NULL` expiry ranks after every concrete expiry. -/
def poolLE (e1 : Option Time) (c1 : Time) (e2 : Option Time) (c2 : Time) : Bool :=
  match e1, e2 with
  | none, none => decide (c1 ≤ c2)
  | none, some _ => false
  | some _, none => true
  | some t1, some t2 => decide (t1 < t2) || (decide (t1 = t2) && decide (c1 ≤ c2))

/-- The `JOIN allowances ON allowances.id = rollover_buckets.allowance_id`
row type test: the bucket's parent allowance exists and has the given type. -/
def bucketHasType (s : LedgerState) (b : RolloverBucket) (ct : CreditType) : Bool :=
  match s.allowances.find? (fun a => a.aid == b.allowanceId) with
  | some a => a.ctype == ct
  | none => false

/-- `BillingService._iter_allowances`: non-expired allowances of the type,
ordered by expiry ascending (nulls last) then creation time ascending. -/
def iterAllowances (s : LedgerState) (ct : CreditType) (now : Time) : List Allowance :=
  (s.allowances.filter (fun a => a.ctype == ct && notExpired a.expiresAt now)).insertionSort
    (fun a b => poolLE a.expiresAt a.createdAt b.expiresAt b.createdAt = true)

/-- `BillingService._iter_rollover_buckets`: non-expired, non-empty buckets
joined to an allowance of the type, in the same order. -/
def iterRolloverBuckets (s : LedgerState) (ct : CreditType) (now : Time) : List RolloverBucket :=
  (s.buckets.filter
      (fun b => bucketHasType s b ct && notExpired b.expiresAt now && decide (0 < b.remain))).insertionSort
    (fun a b => poolLE a.expiresAt a.createdAt b.expiresAt b.createdAt = true)

/-- `BillingService._rollover_available`: `SUM(remain)` over non-expired
buckets joined to an allowance of the type. -/
def rolloverAvailable (s : LedgerState) (ct : CreditType) (now : Time) : Int :=
  ((s.buckets.filter (fun b => bucketHasType s b ct && notExpired b.expiresAt now)).map
    (fun b => b.remain)).sum

/-- The rollover loop of `BillingService.consume` (step 1): walk the sorted
bucket list, deduct `min(bucket.remain, remaining)` from each positive bucket
until the request is satisfied.  Returns the id-keyed `remain` updates and the
remaining amount. -/
def drainBuckets : List RolloverBucket → Int → List (Nat × Int) × Int
  | [], remaining => ([], remaining)
  | b :: rest, remaining =>
    if remaining ≤ 0 then ([], remaining)
    else if b.remain ≤ 0 then drainBuckets rest remaining
    else
      ((b.bid, b.remain - min b.remain remaining)
          :: (drainBuckets rest (remaining - min b.remain remaining)).1,
       (drainBuckets rest (remaining - min b.remain remaining)).2)

/-- Result of the allowance loop of `BillingService.consume`. -/
structure AllowanceDrain where
  updates : List (Nat × Int)
  remaining : Int
  last : Option Nat
deriving DecidableEq, Repr

/-- The current-cycle loop of `BillingService.consume` (step 2): walk the
sorted allowance list, increment `used` by `min(available, remaining)`, and
remember the last allowance touched. -/
def drainAllowances : List Allowance → Int → AllowanceDrain
  | [], remaining => ⟨[], remaining, none⟩
  | a :: rest, remaining =>
    if remaining ≤ 0 then ⟨[], remaining, none⟩
    else if max (a.total - a.used) 0 ≤ 0 then drainAllowances rest remaining
    else
      ⟨(a.aid, a.used + min (max (a.total - a.used) 0) remaining)
          :: (drainAllowances rest
                (remaining - min (max (a.total - a.used) 0) remaining)).updates,
       (drainAllowances rest
          (remaining - min (max (a.total - a.used) 0) remaining)).remaining,
       some ((drainAllowances rest
          (remaining - min (max (a.total - a.used) 0) remaining)).last.getD a.aid)⟩

/-- The new value of one bucket row after the id-keyed `remain` updates. -/
def bucketApply (us : List (Nat × Int)) (b : RolloverBucket) : RolloverBucket :=
  match us.lookup b.bid with
  | some r => { b with remain := r }
  | none => b

/-- The new value of one allowance row after the id-keyed `used` updates. -/
def allowanceApply (us : List (Nat × Int)) (a : Allowance) : Allowance :=
  match us.lookup a.aid with
  | some u => { a with used := u }
  | none => a

/-- Write the mutated `remain` values back to the bucket table. -/
def applyBucketUpdates (bs : List RolloverBucket) (us : List (Nat × Int)) : List RolloverBucket :=
  bs.map (bucketApply us)

/-- Write the mutated `used` values back to the allowance table. -/
def applyAllowanceUpdates (as : List Allowance) (us : List (Nat × Int)) : List Allowance :=
  as.map (allowanceApply us)

/-- State and running totals after `consume`'s two draining loops. -/
structure DrainOutcome where
  state : LedgerState
  remaining : Int
  totalDeducted : Int
  lastAllowance : Option Nat
deriving Repr

/-- Steps 1 and 2 of `BillingService.consume`: drain rollover buckets, then
current-cycle allowances, and write the mutations back. -/
def drainPhase (s : LedgerState) (ct : CreditType) (amount : Int) (now : Time) : DrainOutcome :=
  let rb := drainBuckets (iterRolloverBuckets s ct now) amount
  let ra := drainAllowances (iterAllowances s ct now) rb.2
  { state := { s with
      buckets := applyBucketUpdates s.buckets rb.1,
      allowances := applyAllowanceUpdates s.allowances ra.updates },
    remaining := ra.remaining,
    totalDeducted := amount - ra.remaining,
    lastAllowance := ra.last }

/-- `BillingService.get_primary_subscription`: the primary subscription in
`ACTIVE` or `TRIALING` status, if any. -/
def getPrimarySubscription (s : LedgerState) : Option UserSubscription :=
  match s.subscription with
  | some sub =>
      if sub.isPrimary && (sub.status == SubscriptionStatus.ACTIVE
          || sub.status == SubscriptionStatus.TRIALING) then some sub else none
  | none => none

/-- `limit = subscription.metadata_json.get("autofix_limit") or config.auto_fix_daily_limit`
(a `0`/`None` metadata value falls through to the config default). -/
def effectiveAutofixLimit (sub : UserSubscription) (cfgLimit : Int) : Int :=
  match sub.autofixLimitOverride with
  | some l => if l = 0 then cfgLimit else l
  | none => cfgLimit

/-- `BillingService._apply_autofix`: find or create the day's counter row;
fail (`AutoFixLimitExceeded`, modelled as `none`) when `consumed ≥ limit`,
otherwise increment `consumed`.  Returns the updated table and row. -/
def applyAutofix (records : List AllowanceDailyAutofix) (sub : UserSubscription)
    (dateKey : String) (cfgLimit : Int) :
    Option (List AllowanceDailyAutofix × AllowanceDailyAutofix) :=
  let limit := effectiveAutofixLimit sub cfgLimit
  match records.find? (fun r => r.dateKey == dateKey) with
  | some r =>
      if r.consumed ≥ limit then none
      else
        let r' := { r with consumed := r.consumed + 1 }
        some (records.map (fun x => if x.dateKey == dateKey then r' else x), r')
  | none =>
      if (0 : Int) ≥ limit then none
      else
        let r' : AllowanceDailyAutofix := { dateKey := dateKey, consumed := 1, limit := limit }
        some (records ++ [r'], r')

/-- Fresh primary key for a new row (the uuids are modelled by successive
naturals above every id already present). -/
def freshId (ids : List Nat) : Nat := ids.foldr max 0 + 1

def freshAllowanceId (s : LedgerState) : Nat := freshId (s.allowances.map (fun a => a.aid))

def freshBucketId (s : LedgerState) : Nat := freshId (s.buckets.map (fun b => b.bid))

def freshEventId (s : LedgerState) : Nat := freshId (s.events.map (fun e => e.eid))

def freshChargeId (s : LedgerState) : Nat := freshId (s.charges.map (fun c => c.oid))

/-- `BillingService._log_consumption_event`: the appended event records the
requested amount, the last allowance touched, the supplied hash (or a
generated `user:action:now` hash) and the auto-fix / PAYG flags. -/
def mkEvent (s : LedgerState) (lastA : Option Nat) (action : String) (amount : Int)
    (actionHash : Option String) (now : Time) (autofixApplied : Bool)
    (paygChargeId : Option Nat) : ConsumptionEvent :=
  { eid := freshEventId s,
    allowanceId := lastA,
    type := action,
    amount := amount,
    actionHash := actionHash.getD (action ++ ":" ++ toString now),
    autofixApplied := autofixApplied,
    paygChargeId := paygChargeId }

/-- Failure modes of the consumption path: `ValueError` for a non-positive
amount, `AllowanceExhaustedError`, `AutoFixLimitExceeded`. -/
inductive ConsumeError
  | invalidAmount
  | allowanceExhausted
  | autofixLimitExceeded
deriving DecidableEq, Repr

/-- `ConsumptionResult` as returned by `BillingService.consume`. -/
structure ConsumeOk where
  event : ConsumptionEvent
  totalDeducted : Int
  paygChargeId : Option Nat
  autofixApplied : Bool
deriving DecidableEq, Repr

/-- Append the consumption event and return the successful result. -/
def finishOk (s : LedgerState) (lastA : Option Nat) (amount totalDeducted : Int)
    (action : String) (actionHash : Option String) (now : Time)
    (autofixApplied : Bool) (paygChargeId : Option Nat) :
    LedgerState × Except ConsumeError ConsumeOk :=
  let ev := mkEvent s lastA action amount actionHash now autofixApplied paygChargeId
  ({ s with events := s.events ++ [ev] },
   Except.ok { event := ev, totalDeducted := totalDeducted,
               paygChargeId := paygChargeId, autofixApplied := autofixApplied })

/-- `BillingService.consume` after the amount and idempotency checks: drain
pools, then fall back to the free-tier auto-fix grant or a PAYG overage
charge, or raise `AllowanceExhaustedError` keeping the partial deductions. -/
def consumeCore (s : LedgerState) (ct : CreditType) (amount : Int) (action : String)
    (actionHash : Option String) (allowPayg : Bool) (now : Time) (dateKey : String)
    (cfgAutofixLimit : Int) : LedgerState × Except ConsumeError ConsumeOk :=
  if 0 < (drainPhase s ct amount now).remaining then
    match getPrimarySubscription (drainPhase s ct amount now).state with
    | some sub =>
        if pyLower sub.planName == "free" then
          match applyAutofix (drainPhase s ct amount now).state.autofixRecords sub dateKey
              cfgAutofixLimit with
          | some recs =>
              finishOk { (drainPhase s ct amount now).state with autofixRecords := recs.1 }
                (drainPhase s ct amount now).lastAllowance amount
                (drainPhase s ct amount now).totalDeducted action actionHash now true none
          | none =>
              ((drainPhase s ct amount now).state,
               Except.error ConsumeError.autofixLimitExceeded)
        else if sub.paygEnabled && allowPayg then
          finishOk { (drainPhase s ct amount now).state with
              charges := (drainPhase s ct amount now).state.charges ++
                [{ oid := freshChargeId (drainPhase s ct amount now).state, metric := ct,
                   amount := (drainPhase s ct amount now).remaining,
                   status := OverageChargeStatus.PENDING }] }
            (drainPhase s ct amount now).lastAllowance amount
            (drainPhase s ct amount now).totalDeducted action actionHash now false
            (some (freshChargeId (drainPhase s ct amount now).state))
        else
          ((drainPhase s ct amount now).state,
           Except.error ConsumeError.allowanceExhausted)
    | none =>
        ((drainPhase s ct amount now).state,
         Except.error ConsumeError.allowanceExhausted)
  else
    finishOk (drainPhase s ct amount now).state (drainPhase s ct amount now).lastAllowance
      amount (drainPhase s ct amount now).totalDeducted action actionHash now false none

/-- `BillingService.consume`: validate the amount, return the existing event
when the supplied `action_hash` is already recorded, otherwise run the
consumption pipeline. -/
def consume (s : LedgerState) (ct : CreditType) (amount : Int) (action : String)
    (actionHash : Option String) (allowPayg : Bool) (now : Time) (dateKey : String)
    (cfgAutofixLimit : Int) : LedgerState × Except ConsumeError ConsumeOk :=
  if amount ≤ 0 then (s, Except.error ConsumeError.invalidAmount)
  else
    match actionHash.bind (fun h => s.events.find? (fun e => e.actionHash == h)) with
    | some existing =>
        (s, Except.ok { event := existing, totalDeducted := existing.amount,
                        paygChargeId := none, autofixApplied := false })
    | none => consumeCore s ct amount action actionHash allowPayg now dateKey cfgAutofixLimit

/-- `BillingService.would_consume`: validate the amount, then report
`(available + rollover, rollover)` from read-only queries; the state comes
back untouched. -/
def wouldConsume (s : LedgerState) (ct : CreditType) (amount : Int) (now : Time) :
    LedgerState × Except ConsumeError (Int × Int) :=
  if amount ≤ 0 then (s, Except.error ConsumeError.invalidAmount)
  else
    let totalAvailable :=
      ((iterAllowances s ct now).map (fun a => max (a.total - a.used) 0)).sum
    let rollover := rolloverAvailable s ct now
    (s, Except.ok (totalAvailable + rollover, rollover))

/-- `BillingService._calculate_rollover_expiry`. -/
def calculateRolloverExpiry (currentPeriodEnd : Time) (p : RolloverPolicy) : Time :=
  match p with
  | RolloverPolicy.ONE_CYCLE => currentPeriodEnd + 30 * oneDay
  | RolloverPolicy.ANNUAL => currentPeriodEnd + 365 * oneDay
  | RolloverPolicy.NONE => currentPeriodEnd

/-- `BillingService._upsert_allowance`: create the (user, plan, type)
allowance when missing; otherwise convert the unconsumed `total - used` into a
rollover bucket (unless the policy is `none`) and reset the allowance to the
new quota. -/
def upsertAllowance (s : LedgerState) (planId : Nat) (ct : CreditType)
    (total : Int) (policy : RolloverPolicy) (expiresAt : Time) (now : Time) : LedgerState :=
  match s.allowances.find? (fun a => a.planId == some planId && a.ctype == ct) with
  | none =>
      { s with allowances := s.allowances ++
          [{ aid := freshAllowanceId s, planId := some planId, ctype := ct,
             total := total, used := 0, rolloverPolicy := policy,
             expiresAt := some expiresAt, createdAt := now }] }
  | some existing =>
      if 0 < max (existing.total - existing.used) 0 ∧ policy ≠ RolloverPolicy.NONE then
        { s with
          buckets := s.buckets ++
            [{ bid := freshBucketId s, allowanceId := existing.aid,
               remain := max (existing.total - existing.used) 0,
               expiresAt := some (calculateRolloverExpiry expiresAt policy),
               createdAt := now }],
          allowances := s.allowances.map (fun a =>
            if a.aid == existing.aid then
              { a with total := total, used := 0, rolloverPolicy := policy,
                       expiresAt := some expiresAt }
            else a) }
      else
        { s with allowances := s.allowances.map (fun a =>
            if a.aid == existing.aid then
              { a with total := total, used := 0, rolloverPolicy := policy,
                       expiresAt := some expiresAt }
            else a) }

/-- Python `int(...)`: truncation toward zero on the exact rational value. -/
def pyInt (q : Rat) : Int := if 0 ≤ q then ⌊q⌋ else ⌈q⌉

/-- `int(plan.rc_monthly * usage_bonus_rate)` with the configured default
bonus as fallback. -/
def usageQuota (plan : Plan) (cfgDefaultUsageBonus : Rat) : Int :=
  pyInt ((plan.rcMonthly : Rat) * (plan.usageBonusRate.getD cfgDefaultUsageBonus))

/-- `BillingService.activate_plan`: refresh the primary subscription (creating
one when absent), then upsert the BC / RC / Usage allowances for the new
cycle, skipping non-positive quotas. -/
def activatePlan (s : LedgerState) (plan : Plan) (now : Time)
    (cfgDefaultUsageBonus : Rat) : LedgerState :=
  let periodEnd := now + 30 * oneDay
  let trialEnd : Option Time :=
    if plan.trialDays ≠ 0 then some (now + plan.trialDays * oneDay) else none
  let sub0 : UserSubscription :=
    match getPrimarySubscription s with
    | some sub => sub
    | none =>
        { planId := plan.pid, planName := plan.name, status := SubscriptionStatus.TRIALING,
          paygEnabled := true, isPrimary := true, autofixLimitOverride := none,
          currentPeriodStart := now, currentPeriodEnd := none, trialEndsAt := none }
  let sub := { sub0 with
      planId := plan.pid,
      planName := plan.name,
      status := if trialEnd.isSome then SubscriptionStatus.TRIALING else SubscriptionStatus.ACTIVE,
      paygEnabled := plan.paygEnabled,
      isPrimary := true,
      currentPeriodStart := now,
      currentPeriodEnd := some periodEnd,
      trialEndsAt := trialEnd }
  let s0 := { s with subscription := some sub }
  let usageTotal := usageQuota plan cfgDefaultUsageBonus
  let specs : List (CreditType × Int × RolloverPolicy) :=
    [(CreditType.BC, plan.bcMonthly, RolloverPolicy.ONE_CYCLE),
     (CreditType.RC, plan.rcMonthly, RolloverPolicy.ONE_CYCLE)]
    ++ (if 0 < usageTotal then [(CreditType.USAGE, usageTotal, RolloverPolicy.NONE)] else [])
  specs.foldl (fun acc spec =>
      if spec.2.1 ≤ 0 then acc
      else upsertAllowance acc plan.pid spec.1 spec.2.1 spec.2.2 periodEnd now) s0

/-- A `usage_meter_readings` row (the fields `record_usage` writes). -/
structure UsageMeterReading where
  workspaceId : String
  metric : String
  value : Rat
  period : String
deriving DecidableEq, Repr

/-- A `usage_summaries` row; the `(workspace, metric, period)` key is unique. -/
structure UsageSummary where
  workspaceId : String
  metric : String
  period : String
  value : Rat
deriving DecidableEq, Repr

/-- The state touched by `UsageService`: the billing ledger plus the metering
tables. -/
structure UsageState where
  ledger : LedgerState
  readings : List UsageMeterReading
  summaries : List UsageSummary
deriving DecidableEq, Repr

/-- `UsageService._upsert_summary`: additively fold the reading into the
`(workspace, metric, period)` summary row (the key is unique), creating the
row when missing. -/
def upsertSummary : List UsageSummary → String → String → String → Rat → List UsageSummary
  | [], w, m, p, inc => [{ workspaceId := w, metric := m, period := p, value := inc }]
  | x :: ss, w, m, p, inc =>
      if x.workspaceId == w && x.metric == m && x.period == p then
        { x with value := x.value + inc } :: ss
      else x :: upsertSummary ss w m p inc

/-- Python 3 `round(...)` on the exact value: round half to even. -/
def pyRound (q : Rat) : Int :=
  if q - ⌊q⌋ < 1 / 2 then ⌊q⌋
  else if 1 / 2 < q - ⌊q⌋ then ⌊q⌋ + 1
  else if ⌊q⌋ % 2 = 0 then ⌊q⌋ else ⌊q⌋ + 1

/-- `UsageService.record_usage`: persist the raw reading, fold it into the
summary, and — when consumption is requested and `max(round(value), 0)` is
positive — call `BillingService.consume` with the rounded amount against the
`Usage` credit type. -/
def recordUsage (u : UsageState) (workspaceId metric : String) (value : Rat)
    (period : String) (consumeAllowance : Bool) (now : Time) (dateKey : String)
    (cfgAutofixLimit : Int) : UsageState × Option (Except ConsumeError ConsumeOk) :=
  if consumeAllowance then
    if 0 < max (pyRound value) 0 then
      ({ ledger := (consume u.ledger CreditType.USAGE (max (pyRound value) 0)
            ("usage:" ++ metric) none true now dateKey cfgAutofixLimit).1,
         readings := u.readings ++
           [{ workspaceId := workspaceId, metric := metric, value := value, period := period }],
         summaries := upsertSummary u.summaries workspaceId metric period value },
       some (consume u.ledger CreditType.USAGE (max (pyRound value) 0)
            ("usage:" ++ metric) none true now dateKey cfgAutofixLimit).2)
    else
      ({ ledger := u.ledger,
         readings := u.readings ++
           [{ workspaceId := workspaceId, metric := metric, value := value, period := period }],
         summaries := upsertSummary u.summaries workspaceId metric period value }, none)
  else
    ({ ledger := u.ledger,
       readings := u.readings ++
         [{ workspaceId := workspaceId, metric := metric, value := value, period := period }],
       summaries := upsertSummary u.summaries workspaceId metric period value }, none)

/-- The arguments of one `consume` call, for reasoning about call sequences. -/
structure Call where
  ct : CreditType
  amount : Int
  action : String
  actionHash : Option String
  allowPayg : Bool
  now : Time
  dateKey : String
  cfgAutofixLimit : Int
deriving DecidableEq, Repr

/-- Run a sequence of `consume` calls, threading the state (errors keep the
state the failing call left behind, as in the service). -/
def runCalls : LedgerState → List Call → LedgerState
  | s, [] => s
  | s, c :: cs =>
      runCalls (consume s c.ct c.amount c.action c.actionHash c.allowPayg c.now
        c.dateKey c.cfgAutofixLimit).1 cs

/-- Repeat the same `consume` call `n` times, threading the state. -/
def consumeN (ct : CreditType) (amount : Int) (action : String) (actionHash : Option String)
    (allowPayg : Bool) (now : Time) (dateKey : String) (cfgAutofixLimit : Int) :
    Nat → LedgerState → LedgerState
  | 0, s => s
  | n + 1, s =>
      consumeN ct amount action actionHash allowPayg now dateKey cfgAutofixLimit n
        (consume s ct amount action actionHash allowPayg now dateKey cfgAutofixLimit).1

/-- Repeat the same `would_consume` call `n` times, threading the state. -/
def wouldConsumeN (ct : CreditType) (amount : Int) (now : Time) :
    Nat → LedgerState → LedgerState
  | 0, s => s
  | n + 1, s => wouldConsumeN ct amount now n (wouldConsume s ct amount now).1

/-- The balance invariants of the ledger: `used ≤ total` for every allowance
and `0 ≤ remain` for every rollover bucket. -/
def Inv (s : LedgerState) : Prop :=
  (∀ a ∈ s.allowances, a.used ≤ a.total) ∧ (∀ b ∈ s.buckets, 0 ≤ b.remain)

/-- Well-formedness of the store: allowance primary keys are distinct (they
are uuid primary keys in the database). -/
def WF (s : LedgerState) : Prop :=
  (s.allowances.map (fun a => a.aid)).Nodup

/-- The running total of the `(workspace, metric, period)` usage summary row
(`0` when the row does not exist yet). -/
def summaryValue : List UsageSummary → String → String → String → Rat
  | [], _, _, _ => 0
  | x :: ss, w, m, p =>
      if x.workspaceId == w && x.metric == m && x.period == p then x.value
      else summaryValue ss w m p

/-- Feed a sequence of metered readings through `record_usage` with
`consume_allowance=True`, threading the state. -/
def runReadings (w m p : String) (now : Time) (dateKey : String) (cfg : Int) :
    UsageState → List Rat → UsageState
  | u, [] => u
  | u, v :: vs => runReadings w m p now dateKey cfg (recordUsage u w m v p true now dateKey cfg).1 vs

/-! ### Concrete fixtures used to instantiate the theorems -/

/-- A recorded consumption event with action hash `"h1"`. -/
def exE1 : ConsumptionEvent :=
  { eid := 1, allowanceId := none, type := "act", amount := 2, actionHash := "h1",
    autofixApplied := false, paygChargeId := none }

/-- A ledger that already contains `exE1`. -/
def exC1 : LedgerState :=
  { allowances := [], buckets := [], events := [exE1], charges := [],
    autofixRecords := [], subscription := none }

/-- A ledger with 3 BC of allowance and 5 BC of rollover, no subscription. -/
def exC3 : LedgerState :=
  { allowances := [{ aid := 1, planId := none, ctype := CreditType.BC, total := 3, used := 0,
                     rolloverPolicy := RolloverPolicy.NONE, expiresAt := none, createdAt := 0 }],
    buckets := [{ bid := 1, allowanceId := 1, remain := 5, expiresAt := none, createdAt := 0 }],
    events := [], charges := [], autofixRecords := [], subscription := none }

/-- `exC3` after a failed `consume` of 20: both pools drained, nothing else. -/
def exC3drained : LedgerState :=
  { allowances := [{ aid := 1, planId := none, ctype := CreditType.BC, total := 3, used := 3,
                     rolloverPolicy := RolloverPolicy.NONE, expiresAt := none, createdAt := 0 }],
    buckets := [{ bid := 1, allowanceId := 1, remain := 0, expiresAt := none, createdAt := 0 }],
    events := [], charges := [], autofixRecords := [], subscription := none }

/-- A bucket with `remain = 50` in front of an allowance with `total - used = 100`. -/
def exC5 : LedgerState :=
  { allowances := [{ aid := 1, planId := none, ctype := CreditType.BC, total := 100, used := 0,
                     rolloverPolicy := RolloverPolicy.NONE, expiresAt := none, createdAt := 0 }],
    buckets := [{ bid := 1, allowanceId := 1, remain := 50, expiresAt := none, createdAt := 0 }],
    events := [], charges := [], autofixRecords := [], subscription := none }

/-- An active primary subscription on the Free plan. -/
def exSubFree : UserSubscription :=
  { planId := 1, planName := "Free", status := SubscriptionStatus.ACTIVE, paygEnabled := true,
    isPrimary := true, autofixLimitOverride := none, currentPeriodStart := 0,
    currentPeriodEnd := none, trialEndsAt := none }

/-- An active primary subscription on the Pro plan with PAYG enabled. -/
def exSubPro : UserSubscription :=
  { planId := 2, planName := "Pro", status := SubscriptionStatus.ACTIVE, paygEnabled := true,
    isPrimary := true, autofixLimitOverride := none, currentPeriodStart := 0,
    currentPeriodEnd := none, trialEndsAt := none }

/-- A Free-plan user with no credit pools at all. -/
def exC7 : LedgerState :=
  { allowances := [], buckets := [], events := [], charges := [], autofixRecords := [],
    subscription := some exSubFree }

/-- One exhaustion event on the Free plan: `consume` of 5 BC. -/
def exStep7 (s : LedgerState) : LedgerState × Except ConsumeError ConsumeOk :=
  consume s CreditType.BC 5 "a" none true 0 "2026-01-01" 3

/-- `true` iff the result is a success whose event carries the auto-fix flag. -/
def okWithAutofix : Except ConsumeError ConsumeOk → Bool
  | Except.ok r => r.autofixApplied
  | Except.error _ => false

/-- `true` iff the consumption call succeeded. -/
def isOk : Except ConsumeError ConsumeOk → Bool
  | Except.ok _ => true
  | Except.error _ => false

/-- The error carried by a failed consumption result, if any. -/
def errValue : Except ConsumeError ConsumeOk → Option ConsumeError
  | Except.error e => some e
  | Except.ok _ => none

instance : DecidableEq (Except ConsumeError ConsumeOk)
  | Except.ok x, Except.ok y =>
      if h : x = y then Decidable.isTrue (h ▸ rfl)
      else Decidable.isFalse (fun hc => h (Except.ok.inj hc))
  | Except.ok _, Except.error _ => Decidable.isFalse (fun hc => Except.noConfusion hc)
  | Except.error _, Except.ok _ => Decidable.isFalse (fun hc => Except.noConfusion hc)
  | Except.error x, Except.error y =>
      if h : x = y then Decidable.isTrue (h ▸ rfl)
      else Decidable.isFalse (fun hc => h (Except.error.inj hc))

/-- A Pro-plan user with PAYG enabled and no remaining Usage credit. -/
def exC8 : LedgerState :=
  { allowances := [], buckets := [], events := [], charges := [], autofixRecords := [],
    subscription := some exSubPro }

/-- The plan used for the re-seed scenario: 500 BC monthly, no RC, no usage bonus. -/
def exPlan6 : Plan :=
  { pid := 9, name := "Pro", bcMonthly := 500, rcMonthly := 0,
    usageBonusRate := some 0, trialDays := 0, paygEnabled := true }

/-- A ledger holding the prior-cycle allowance `total = 400, used = 150` of
plan 9 before re-activation. -/
def exC6 : LedgerState :=
  { allowances := [{ aid := 1, planId := some 9, ctype := CreditType.BC, total := 400,
                     used := 150, rolloverPolicy := RolloverPolicy.ONE_CYCLE,
                     expiresAt := some 100, createdAt := 0 }],
    buckets := [], events := [], charges := [], autofixRecords := [], subscription := none }

/-- The prior-cycle allowance row held in `exC6`. -/
def exA6 : Allowance :=
  { aid := 1, planId := some 9, ctype := CreditType.BC, total := 400, used := 150,
    rolloverPolicy := RolloverPolicy.ONE_CYCLE, expiresAt := some 100, createdAt := 0 }

/-- The state `activate_plan` produces from `exC6` at `now = 0`: allowance
reset to the new quota, leftover 250 rolled into a bucket expiring 60 days
after the new cycle start. -/
def exActivated6 : LedgerState :=
  { allowances := [{ aid := 1, planId := some 9, ctype := CreditType.BC, total := 500, used := 0,
                     rolloverPolicy := RolloverPolicy.ONE_CYCLE, expiresAt := some (30 * oneDay),
                     createdAt := 0 }],
    buckets := [{ bid := 1, allowanceId := 1, remain := 250, expiresAt := some (60 * oneDay),
                  createdAt := 0 }],
    events := [], charges := [], autofixRecords := [],
    subscription := some { planId := 9, planName := "Pro", status := SubscriptionStatus.ACTIVE,
                           paygEnabled := true, isPrimary := true, autofixLimitOverride := none,
                           currentPeriodStart := 0, currentPeriodEnd := some (30 * oneDay),
                           trialEndsAt := none } }

/-- A usage-metering state over the `exC5` ledger with no readings yet. -/
def exU10 : UsageState :=
  { ledger := exC5, readings := [], summaries := [] }

/-- Two consume calls: one covered by rollover, one overdrawing. -/
def exCalls : List Call :=
  [{ ct := CreditType.BC, amount := 30, action := "a", actionHash := none,
     allowPayg := true, now := 0, dateKey := "d", cfgAutofixLimit := 3 },
   { ct := CreditType.BC, amount := 100, action := "b", actionHash := none,
     allowPayg := true, now := 0, dateKey := "d", cfgAutofixLimit := 3 }]

/-! ### Plumbing lemmas: id-keyed updates -/

theorem lookup_mem {k : Nat} {r : Int} :
    ∀ us : List (Nat × Int), us.lookup k = some r → (k, r) ∈ us := by
  intro us
  induction us with
  | nil => intro h; simp [List.lookup] at h
  | cons p us ih =>
      intro h
      obtain ⟨k', v⟩ := p
      simp only [List.lookup] at h
      split at h
      · next heq =>
          injection h with h
          subst h
          have hk : k = k' := by simpa using heq
          subst hk
          exact List.mem_cons_self _ _
      · exact List.mem_cons_of_mem _ (ih h)

theorem lookup_isSome_of_mem {k : Nat} {r : Int} :
    ∀ us : List (Nat × Int), (k, r) ∈ us → (us.lookup k).isSome := by
  intro us
  induction us with
  | nil => simp
  | cons p us ih =>
      intro h
      obtain ⟨k', v⟩ := p
      rcases List.mem_cons.mp h with h1 | h2
      · have hk : k = k' := by
          have := congrArg Prod.fst h1
          simpa using this
        subst hk
        simp [List.lookup]
      · simp only [List.lookup]
        split
        · simp
        · exact ih h2

theorem bucketApply_bid (us : List (Nat × Int)) (b : RolloverBucket) :
    (bucketApply us b).bid = b.bid := by
  unfold bucketApply; split <;> rfl

theorem bucketApply_allowanceId (us : List (Nat × Int)) (b : RolloverBucket) :
    (bucketApply us b).allowanceId = b.allowanceId := by
  unfold bucketApply; split <;> rfl

theorem bucketApply_expiresAt (us : List (Nat × Int)) (b : RolloverBucket) :
    (bucketApply us b).expiresAt = b.expiresAt := by
  unfold bucketApply; split <;> rfl

theorem allowanceApply_aid (us : List (Nat × Int)) (a : Allowance) :
    (allowanceApply us a).aid = a.aid := by
  unfold allowanceApply; split <;> rfl

theorem allowanceApply_ctype (us : List (Nat × Int)) (a : Allowance) :
    (allowanceApply us a).ctype = a.ctype := by
  unfold allowanceApply; split <;> rfl

theorem allowanceApply_total (us : List (Nat × Int)) (a : Allowance) :
    (allowanceApply us a).total = a.total := by
  unfold allowanceApply; split <;> rfl

theorem allowanceApply_expiresAt (us : List (Nat × Int)) (a : Allowance) :
    (allowanceApply us a).expiresAt = a.expiresAt := by
  unfold allowanceApply; split <;> rfl

theorem applyBucketUpdates_nil (bs : List RolloverBucket) : applyBucketUpdates bs [] = bs := by
  unfold applyBucketUpdates
  have h : bucketApply [] = fun b => b := funext fun b => rfl
  simp [h]

theorem applyAllowanceUpdates_nil (as : List Allowance) : applyAllowanceUpdates as [] = as := by
  unfold applyAllowanceUpdates
  have h : allowanceApply [] = fun a => a := funext fun a => rfl
  simp [h]

/-! ### Lemmas about the two draining loops -/

theorem drainBuckets_remaining_le : ∀ (l : List RolloverBucket) (rem : Int),
    (drainBuckets l rem).2 ≤ rem := by
  intro l
  induction l with
  | nil => intro rem; simp [drainBuckets]
  | cons b l ih =>
      intro rem
      simp only [drainBuckets]
      split
      · simp
      · split
        · exact ih rem
        · next h1 h2 =>
            have := ih (rem - min b.remain rem)
            simp only at this ⊢
            omega

theorem drainAllowances_remaining_le : ∀ (l : List Allowance) (rem : Int),
    (drainAllowances l rem).remaining ≤ rem := by
  intro l
  induction l with
  | nil => intro rem; simp [drainAllowances]
  | cons a l ih =>
      intro rem
      simp only [drainAllowances]
      split
      · simp
      · split
        · exact ih rem
        · next h1 h2 =>
            have := ih (rem - min (max (a.total - a.used) 0) rem)
            simp only at this ⊢
            omega

theorem drainBuckets_updates_nonneg : ∀ (l : List RolloverBucket) (rem : Int),
    ∀ p ∈ (drainBuckets l rem).1, 0 ≤ p.2 := by
  intro l
  induction l with
  | nil => intro rem p hp; simp [drainBuckets] at hp
  | cons b l ih =>
      intro rem p hp
      simp only [drainBuckets] at hp
      split at hp
      · simp at hp
      · split at hp
        · exact ih rem p hp
        · rcases List.mem_cons.mp hp with h1 | h2
          · subst h1; simp only; omega
          · exact ih _ p h2

theorem drainAllowances_updates_bound : ∀ (l : List Allowance) (rem : Int),
    ∀ p ∈ (drainAllowances l rem).updates,
      ∃ a ∈ l, p.1 = a.aid ∧ a.used ≤ p.2 ∧ p.2 ≤ a.total := by
  intro l
  induction l with
  | nil => intro rem p hp; simp [drainAllowances] at hp
  | cons a l ih =>
      intro rem p hp
      simp only [drainAllowances] at hp
      split at hp
      · simp at hp
      · split at hp
        · obtain ⟨a', ha', hp'⟩ := ih rem p hp
          exact ⟨a', List.mem_cons_of_mem _ ha', hp'⟩
        · next h1 h2 =>
            rcases List.mem_cons.mp hp with h3 | h3
            · subst h3
              exact ⟨a, List.mem_cons_self _ _, rfl, by omega, by omega⟩
            · obtain ⟨a', ha', hp'⟩ := ih _ p h3
              exact ⟨a', List.mem_cons_of_mem _ ha', hp'⟩

theorem drainBuckets_exhausted : ∀ (l : List RolloverBucket) (rem : Int),
    0 < (drainBuckets l rem).2 →
      (∀ p ∈ (drainBuckets l rem).1, p.2 = 0) ∧
      (∀ b ∈ l, 0 < b.remain → ∃ p ∈ (drainBuckets l rem).1, p.1 = b.bid) := by
  intro l
  induction l with
  | nil => intro rem _; constructor <;> simp [drainBuckets]
  | cons b l ih =>
      intro rem hrem
      simp only [drainBuckets] at hrem ⊢
      by_cases h0 : rem ≤ 0
      · rw [if_pos h0] at hrem
        exact absurd hrem (by omega)
      · rw [if_neg h0] at hrem ⊢
        by_cases h1 : b.remain ≤ 0
        · rw [if_pos h1] at hrem ⊢
          obtain ⟨hv, hk⟩ := ih rem hrem
          refine ⟨hv, ?_⟩
          intro b' hb' hpos
          rcases List.mem_cons.mp hb' with h2 | h2
          · subst h2; omega
          · exact hk b' h2 hpos
        · rw [if_neg h1] at hrem ⊢
          simp only at hrem ⊢
          have hle := drainBuckets_remaining_le l (rem - min b.remain rem)
          have hdlt : min b.remain rem = b.remain := by omega
          obtain ⟨hv, hk⟩ := ih (rem - min b.remain rem) hrem
          constructor
          · intro p hp
            rcases List.mem_cons.mp hp with h2 | h2
            · subst h2; simp only; omega
            · exact hv p h2
          · intro b' hb' hpos
            rcases List.mem_cons.mp hb' with h2 | h2
            · subst h2
              exact ⟨(b'.bid, b'.remain - min b'.remain rem), List.mem_cons_self _ _, rfl⟩
            · obtain ⟨p, hp, hpk⟩ := hk b' h2 hpos
              exact ⟨p, List.mem_cons_of_mem _ hp, hpk⟩

theorem drainAllowances_exhausted : ∀ (l : List Allowance) (rem : Int),
    0 < (drainAllowances l rem).remaining →
      (∀ p ∈ (drainAllowances l rem).updates, ∃ a ∈ l, p.1 = a.aid ∧ p.2 = a.total) ∧
      (∀ a ∈ l, 0 < a.total - a.used →
        ∃ p ∈ (drainAllowances l rem).updates, p.1 = a.aid) := by
  intro l
  induction l with
  | nil => intro rem _; constructor <;> simp [drainAllowances]
  | cons a l ih =>
      intro rem hrem
      simp only [drainAllowances] at hrem ⊢
      by_cases h0 : rem ≤ 0
      · rw [if_pos h0] at hrem
        exact absurd hrem (by simp; omega)
      · rw [if_neg h0] at hrem ⊢
        by_cases h1 : max (a.total - a.used) 0 ≤ 0
        · rw [if_pos h1] at hrem ⊢
          obtain ⟨hv, hk⟩ := ih rem hrem
          constructor
          · intro p hp
            obtain ⟨a', ha', hp'⟩ := hv p hp
            exact ⟨a', List.mem_cons_of_mem _ ha', hp'⟩
          · intro a' ha' hpos
            rcases List.mem_cons.mp ha' with h2 | h2
            · subst h2; omega
            · exact hk a' h2 hpos
        · rw [if_neg h1] at hrem ⊢
          simp only at hrem ⊢
          have hle := drainAllowances_remaining_le l
            (rem - min (max (a.total - a.used) 0) rem)
          have hdlt : min (max (a.total - a.used) 0) rem = a.total - a.used := by omega
          obtain ⟨hv, hk⟩ := ih (rem - min (max (a.total - a.used) 0) rem) hrem
          constructor
          · intro p hp
            rcases List.mem_cons.mp hp with h2 | h2
            · subst h2
              exact ⟨a, List.mem_cons_self _ _, rfl, by simp only; omega⟩
            · obtain ⟨a', ha', hp'⟩ := hv p h2
              exact ⟨a', List.mem_cons_of_mem _ ha', hp'⟩
          · intro a' ha' hpos
            rcases List.mem_cons.mp ha' with h2 | h2
            · subst h2
              exact ⟨(a'.aid, a'.used + min (max (a'.total - a'.used) 0) rem),
                List.mem_cons_self _ _, rfl⟩
            · obtain ⟨p, hp, hpk⟩ := hk a' h2 hpos
              exact ⟨p, List.mem_cons_of_mem _ hp, hpk⟩

theorem drainAllowances_empty : ∀ (l : List Allowance) (rem : Int),
    (∀ a ∈ l, a.total - a.used ≤ 0) → drainAllowances l rem = ⟨[], rem, none⟩ := by
  intro l
  induction l with
  | nil => intro rem _; rfl
  | cons a l ih =>
      intro rem hall
      have ha : a.total - a.used ≤ 0 := hall a (List.mem_cons_self _ _)
      simp only [drainAllowances]
      split
      · rfl
      · split
        · exact ih rem (fun x hx => hall x (List.mem_cons_of_mem _ hx))
        · next h0 h1 => omega

/-! ### Structural lemmas about `consume` -/

theorem getPrimarySubscription_drainPhase (s : LedgerState) (ct : CreditType)
    (amount : Int) (now : Time) :
    getPrimarySubscription (drainPhase s ct amount now).state = getPrimarySubscription s := rfl

theorem drainPhase_events (s : LedgerState) (ct : CreditType) (amount : Int) (now : Time) :
    (drainPhase s ct amount now).state.events = s.events := rfl

theorem drainPhase_charges (s : LedgerState) (ct : CreditType) (amount : Int) (now : Time) :
    (drainPhase s ct amount now).state.charges = s.charges := rfl

theorem drainPhase_autofixRecords (s : LedgerState) (ct : CreditType) (amount : Int) (now : Time) :
    (drainPhase s ct amount now).state.autofixRecords = s.autofixRecords := rfl

theorem drainPhase_subscription (s : LedgerState) (ct : CreditType) (amount : Int) (now : Time) :
    (drainPhase s ct amount now).state.subscription = s.subscription := rfl

theorem finishOk_inv (sx s1 : LedgerState) (lastA : Option Nat) (amount td : Int)
    (action : String) (ah : Option String) (now : Time) (fl : Bool) (pid : Option Nat)
    (r : ConsumeOk)
    (h : finishOk sx lastA amount td action ah now fl pid = (s1, Except.ok r)) :
    s1.events = sx.events ++ [r.event] ∧
      r.event.actionHash = ah.getD (action ++ ":" ++ toString now) ∧
      s1.allowances = sx.allowances ∧ s1.buckets = sx.buckets ∧
      r.totalDeducted = td ∧ r.autofixApplied = fl ∧ r.paygChargeId = pid := by
  unfold finishOk at h
  rw [Prod.mk.injEq] at h
  obtain ⟨h1, h2⟩ := h
  simp only [Except.ok.injEq] at h2
  subst h2
  subst h1
  exact ⟨rfl, rfl, rfl, rfl, rfl, rfl, rfl⟩

theorem consumeCore_ok_events (s s1 : LedgerState) (ct : CreditType) (amount : Int)
    (action : String) (ah : Option String) (ap : Bool) (now : Time) (dk : String)
    (cfg : Int) (r : ConsumeOk)
    (h : consumeCore s ct amount action ah ap now dk cfg = (s1, Except.ok r)) :
    s1.events = s.events ++ [r.event] ∧
      r.event.actionHash = ah.getD (action ++ ":" ++ toString now) := by
  unfold consumeCore at h
  split at h
  · split at h
    · split at h
      · split at h
        · obtain ⟨h1, h2, _⟩ := finishOk_inv _ _ _ _ _ _ _ _ _ _ _ h
          exact ⟨h1, h2⟩
        · simp [Prod.ext_iff] at h
      · split at h
        · obtain ⟨h1, h2, _⟩ := finishOk_inv _ _ _ _ _ _ _ _ _ _ _ h
          exact ⟨h1, h2⟩
        · simp [Prod.ext_iff] at h
    · simp [Prod.ext_iff] at h
  · obtain ⟨h1, h2, _⟩ := finishOk_inv _ _ _ _ _ _ _ _ _ _ _ h
    exact ⟨h1, h2⟩

theorem consume_hash_found (s : LedgerState) (ct : CreditType) (amount : Int)
    (action : String) (h : String) (ap : Bool) (now : Time) (dk : String) (cfg : Int)
    (e : ConsumptionEvent) (hpos : 0 < amount)
    (hfind : s.events.find? (fun x => x.actionHash == h) = some e) :
    consume s ct amount action (some h) ap now dk cfg
      = (s, Except.ok { event := e, totalDeducted := e.amount,
                        paygChargeId := none, autofixApplied := false }) := by
  unfold consume
  rw [if_neg (by omega)]
  rw [show ((some h).bind fun hh => s.events.find? (fun x => x.actionHash == hh))
      = s.events.find? (fun x => x.actionHash == h) from rfl]
  rw [hfind]

theorem consumeN_fixed (s : LedgerState) (ct : CreditType) (amount : Int)
    (action : String) (ah : Option String) (ap : Bool) (now : Time) (dk : String)
    (cfg : Int)
    (h : (consume s ct amount action ah ap now dk cfg).1 = s) :
    ∀ n, consumeN ct amount action ah ap now dk cfg n s = s := by
  intro n
  induction n with
  | zero => rfl
  | succ n ih =>
      show consumeN ct amount action ah ap now dk cfg n
        (consume s ct amount action ah ap now dk cfg).1 = s
      rw [h]
      exact ih

theorem drainBuckets_sum_cover : ∀ (l : List RolloverBucket) (rem : Int),
    rem ≤ (l.map (fun b => b.remain)).sum → (drainBuckets l rem).2 ≤ 0 := by
  intro l
  induction l with
  | nil => intro rem h; simpa [drainBuckets] using h
  | cons b l ih =>
      intro rem h
      simp only [List.map_cons, List.sum_cons] at h
      simp only [drainBuckets]
      split
      · next h0 => simpa using h0
      · split
        · next h0 h1 => exact ih rem (by omega)
        · next h0 h1 =>
            simp only
            have hle := drainBuckets_remaining_le l (rem - min b.remain rem)
            by_cases hc : b.remain ≤ rem
            · exact ih (rem - min b.remain rem) (by omega)
            · omega

end Billing

namespace Billing

/-! ### C1: idempotent consumption by action hash -/

/-- C1: if a ConsumptionEvent with the supplied `action_hash` already exists,
`consume` returns it unchanged — same state, no deduction, no new event — and
after a first successful call with a fresh hash, exactly one event with that
hash exists and repeating the call any number of times leaves the state (and
hence the net balance change) exactly as after the single call. -/
theorem consume_action_hash_idempotent
    (s : LedgerState) (ct : CreditType) (amount : Int) (action : String) (h : String)
    (ap : Bool) (now : Time) (dk : String) (cfg : Int)
    (hpos : 0 < amount) :
    (∀ e, s.events.find? (fun x => x.actionHash == h) = some e →
      consume s ct amount action (some h) ap now dk cfg
        = (s, Except.ok { event := e, totalDeducted := e.amount,
                          paygChargeId := none, autofixApplied := false })) ∧
    (s.events.find? (fun x => x.actionHash == h) = none →
      ∀ s1 r, consume s ct amount action (some h) ap now dk cfg = (s1, Except.ok r) →
        s1.events.countP (fun x => x.actionHash == h) = 1 ∧
        ∀ n, consumeN ct amount action (some h) ap now dk cfg n s1 = s1) := by
  constructor
  · intro e hfind
    exact consume_hash_found s ct amount action h ap now dk cfg e hpos hfind
  · intro hnone s1 r hok
    have hcore : consumeCore s ct amount action (some h) ap now dk cfg
        = (s1, Except.ok r) := by
      unfold consume at hok
      rw [if_neg (by omega)] at hok
      rw [show ((some h).bind fun hh => s.events.find? (fun x => x.actionHash == hh))
          = s.events.find? (fun x => x.actionHash == h) from rfl, hnone] at hok
      exact hok
    obtain ⟨hev, hhash⟩ :=
      consumeCore_ok_events s s1 ct amount action (some h) ap now dk cfg r hcore
    have hhash' : r.event.actionHash = h := hhash
    have hcount0 : s.events.countP (fun x => x.actionHash == h) = 0 :=
      List.countP_eq_zero.mpr (by
        intro a ha
        have := List.find?_eq_none.mp hnone a ha
        simpa using this)
    have hpred : (fun x => x.actionHash == h) r.event = true := by simp [hhash']
    constructor
    · rw [hev, List.countP_append, hcount0]
      simp [List.countP_cons, hpred]
    · have hfind1 : s1.events.find? (fun x => x.actionHash == h) = some r.event := by
        rw [hev, List.find?_append, hnone]
        simp [List.find?_cons, hpred]
      intro n
      apply consumeN_fixed
      rw [consume_hash_found s1 ct amount action h ap now dk cfg r.event hpos hfind1]

/-- C1 witness: a replayed hash on a concrete ledger returns the stored event
and the unchanged state. -/
theorem consume_action_hash_idempotent_witness :
    consume exC1 CreditType.BC 3 "act" (some "h1") true 0 "d" 3
      = (exC1, Except.ok { event := exE1, totalDeducted := exE1.amount,
                           paygChargeId := none, autofixApplied := false }) :=
  (consume_action_hash_idempotent exC1 CreditType.BC 3 "act" "h1" true 0 "d" 3
    (by decide)).1 exE1 (by decide)

end Billing

namespace Billing

/-! ### Transfer lemmas between the original and the drained state -/

theorem drainAllowances_nonpos (l : List Allowance) (rem : Int) (h : rem ≤ 0) :
    drainAllowances l rem = ⟨[], rem, none⟩ := by
  cases l with
  | nil => rfl
  | cons a l =>
      show (if rem ≤ 0 then (⟨[], rem, none⟩ : AllowanceDrain) else _) = _
      rw [if_pos h]

theorem notExpired_mono (e : Option Time) (now now2 : Time) (hle : now ≤ now2)
    (h : notExpired e now2 = true) : notExpired e now = true := by
  cases e with
  | none => rfl
  | some t =>
      have h' : now2 < t := by simpa [notExpired] using h
      show decide (now < t) = true
      rw [decide_eq_true_eq]
      exact lt_of_le_of_lt hle h'

theorem find?_aid_apply (as : List Allowance) (us : List (Nat × Int)) (k : Nat) :
    (applyAllowanceUpdates as us).find? (fun a => a.aid == k)
      = (as.find? (fun a => a.aid == k)).map (allowanceApply us) := by
  induction as with
  | nil => rfl
  | cons a as ih =>
      show List.find? (fun x => x.aid == k) (allowanceApply us a :: applyAllowanceUpdates as us)
        = Option.map (allowanceApply us) (List.find? (fun x => x.aid == k) (a :: as))
      simp only [List.find?]
      have hep : ((allowanceApply us a).aid == k) = (a.aid == k) := by
        rw [allowanceApply_aid]
      rw [hep]
      cases hbk : (a.aid == k)
      · exact ih
      · rfl

theorem bucketHasType_drainPhase (s : LedgerState) (ct ct' : CreditType) (amount : Int)
    (now : Time) (b : RolloverBucket) :
    bucketHasType (drainPhase s ct amount now).state b ct' = bucketHasType s b ct' := by
  unfold bucketHasType
  rw [show (drainPhase s ct amount now).state.allowances
      = applyAllowanceUpdates s.allowances (drainAllowances (iterAllowances s ct now)
          (drainBuckets (iterRolloverBuckets s ct now) amount).2).updates from rfl]
  rw [find?_aid_apply]
  cases h : s.allowances.find? (fun a => a.aid == b.allowanceId) with
  | none => rfl
  | some a =>
      show ((allowanceApply _ a).ctype == ct') = (a.ctype == ct')
      rw [allowanceApply_ctype]

theorem mem_iterAllowances {s : LedgerState} {ct : CreditType} {now : Time} {a : Allowance} :
    a ∈ iterAllowances s ct now ↔
      a ∈ s.allowances ∧ (a.ctype == ct && notExpired a.expiresAt now) = true := by
  unfold iterAllowances
  rw [List.mem_insertionSort, List.mem_filter]

theorem mem_iterRolloverBuckets {s : LedgerState} {ct : CreditType} {now : Time}
    {b : RolloverBucket} :
    b ∈ iterRolloverBuckets s ct now ↔
      b ∈ s.buckets ∧
        (bucketHasType s b ct && notExpired b.expiresAt now && decide (0 < b.remain)) = true := by
  unfold iterRolloverBuckets
  rw [List.mem_insertionSort, List.mem_filter]

theorem applyAllowanceUpdates_map_aid (as : List Allowance) (us : List (Nat × Int)) :
    (applyAllowanceUpdates as us).map (fun a => a.aid) = as.map (fun a => a.aid) := by
  induction as with
  | nil => rfl
  | cons a as ih =>
      show (allowanceApply us a).aid :: (applyAllowanceUpdates as us).map (fun a => a.aid)
        = a.aid :: as.map (fun a => a.aid)
      rw [allowanceApply_aid, ih]

end Billing

namespace Billing

/-! ### C3: exhaustion keeps partial deductions and emits no event -/

/-- C3: when the drains leave a positive remainder and neither the free-tier
auto-fix branch nor the PAYG branch applies, `consume` fails with
`AllowanceExhaustedError`; the state it leaves is exactly the post-drain state
(the partial deductions to buckets and allowances stand), and no consumption
event, overage charge or auto-fix record is produced. -/
theorem consume_exhausted_keeps_deductions
    (s : LedgerState) (ct : CreditType) (amount : Int) (action : String)
    (ah : Option String) (ap : Bool) (now : Time) (dk : String) (cfg : Int)
    (hpos : 0 < amount)
    (hfresh : (ah.bind fun hh => s.events.find? (fun e => e.actionHash == hh)) = none)
    (hrem : 0 < (drainPhase s ct amount now).remaining)
    (hnofix : ∀ sub, getPrimarySubscription s = some sub →
      pyLower sub.planName ≠ "free" ∧ ¬(sub.paygEnabled = true ∧ ap = true)) :
    consume s ct amount action ah ap now dk cfg
      = ((drainPhase s ct amount now).state, Except.error ConsumeError.allowanceExhausted)
    ∧ (drainPhase s ct amount now).state.events = s.events
    ∧ (drainPhase s ct amount now).state.charges = s.charges
    ∧ (drainPhase s ct amount now).state.autofixRecords = s.autofixRecords
    ∧ (drainPhase s ct amount now).state.buckets
        = applyBucketUpdates s.buckets (drainBuckets (iterRolloverBuckets s ct now) amount).1
    ∧ (drainPhase s ct amount now).state.allowances
        = applyAllowanceUpdates s.allowances
            (drainAllowances (iterAllowances s ct now)
              (drainBuckets (iterRolloverBuckets s ct now) amount).2).updates := by
  refine ⟨?_, rfl, rfl, rfl, rfl, rfl⟩
  unfold consume
  rw [if_neg (by omega), hfresh]
  show consumeCore s ct amount action ah ap now dk cfg = _
  unfold consumeCore
  rw [if_pos hrem, getPrimarySubscription_drainPhase]
  cases hsub : getPrimarySubscription s with
  | none => rfl
  | some sub =>
      obtain ⟨hfree, hpayg⟩ := hnofix sub hsub
      dsimp only
      rw [if_neg (by simp [hfree]), if_neg (by simp only [Bool.and_eq_true]; exact hpayg)]

/-- C3 witness: consuming 20 BC against 5 rollover + 3 allowance fails with
`AllowanceExhaustedError` while keeping the 8 credits already deducted. -/
theorem consume_exhausted_keeps_deductions_witness :
    consume exC3 CreditType.BC 20 "a" none true 0 "d" 3
      = ((drainPhase exC3 CreditType.BC 20 0).state,
         Except.error ConsumeError.allowanceExhausted) :=
  (consume_exhausted_keeps_deductions exC3 CreditType.BC 20 "a" none true 0 "d" 3
    (by decide) rfl (by decide)
    (fun sub h => absurd h (by simp [getPrimarySubscription, exC3]))).1

/-! ### C5: rollover buckets are drained strictly before allowances -/

/-- C5: whenever the (soonest-expiring-first) rollover buckets can cover the
whole request, the current-cycle allowances are untouched; in particular on a
bucket with `remain = 50` in front of an allowance with `total - used = 100`,
consuming 30 leaves the bucket at `remain = 20` and the allowance unchanged. -/
theorem rollover_buckets_drained_first
    (s : LedgerState) (ct : CreditType) (amount : Int) (action : String)
    (ah : Option String) (ap : Bool) (now : Time) (dk : String) (cfg : Int)
    (hfresh : (ah.bind fun hh => s.events.find? (fun e => e.actionHash == hh)) = none)
    (hcover : amount ≤ ((iterRolloverBuckets s ct now).map (fun b => b.remain)).sum) :
    (consume s ct amount action ah ap now dk cfg).1.allowances = s.allowances
    ∧ (consume exC5 CreditType.BC 30 "a" none true 0 "d" 3).1.buckets
        = [{ bid := 1, allowanceId := 1, remain := 20, expiresAt := none, createdAt := 0 }]
    ∧ (consume exC5 CreditType.BC 30 "a" none true 0 "d" 3).1.allowances
        = exC5.allowances := by
  refine ⟨?_, by decide, by decide⟩
  by_cases hamt : amount ≤ 0
  · unfold consume
    rw [if_pos hamt]
  · unfold consume
    rw [if_neg hamt, hfresh]
    show (consumeCore s ct amount action ah ap now dk cfg).1.allowances = s.allowances
    have hb : (drainBuckets (iterRolloverBuckets s ct now) amount).2 ≤ 0 :=
      drainBuckets_sum_cover _ _ hcover
    have hda : drainAllowances (iterAllowances s ct now)
        (drainBuckets (iterRolloverBuckets s ct now) amount).2
        = ⟨[], (drainBuckets (iterRolloverBuckets s ct now) amount).2, none⟩ :=
      drainAllowances_nonpos _ _ hb
    have hremfalse : ¬ 0 < (drainPhase s ct amount now).remaining := by
      rw [show (drainPhase s ct amount now).remaining
          = (drainAllowances (iterAllowances s ct now)
              (drainBuckets (iterRolloverBuckets s ct now) amount).2).remaining from rfl, hda]
      have hnl : ¬ (0:Int) < (drainBuckets (iterRolloverBuckets s ct now) amount).2 := by omega
      exact hnl
    unfold consumeCore
    rw [if_neg hremfalse]
    show (applyAllowanceUpdates s.allowances
      (drainAllowances (iterAllowances s ct now)
        (drainBuckets (iterRolloverBuckets s ct now) amount).2).updates) = s.allowances
    rw [hda]
    exact applyAllowanceUpdates_nil _

/-- C5 witness: on the concrete 50-rollover / 100-allowance ledger, consuming
30 leaves every allowance untouched. -/
theorem rollover_buckets_drained_first_witness :
    (consume exC5 CreditType.BC 30 "a" none true 0 "d" 3).1.allowances = exC5.allowances :=
  (rollover_buckets_drained_first exC5 CreditType.BC 30 "a" none true 0 "d" 3
    rfl (by decide)).1

end Billing

namespace Billing

/-! ### C7: the Free-plan auto-fix grant and its daily cap -/

theorem applyAutofix_below_limit (records : List AllowanceDailyAutofix)
    (sub : UserSubscription) (dk : String) (cfg : Int) (rec : AllowanceDailyAutofix)
    (hrec : records.find? (fun r => r.dateKey == dk) = some rec)
    (hlt : rec.consumed < effectiveAutofixLimit sub cfg) :
    applyAutofix records sub dk cfg
      = some (records.map (fun x =>
          if x.dateKey == dk then { rec with consumed := rec.consumed + 1 } else x),
        { rec with consumed := rec.consumed + 1 }) := by
  unfold applyAutofix
  rw [hrec]
  dsimp only
  rw [if_neg (not_le.mpr hlt)]

theorem applyAutofix_at_limit (records : List AllowanceDailyAutofix)
    (sub : UserSubscription) (dk : String) (cfg : Int) (rec : AllowanceDailyAutofix)
    (hrec : records.find? (fun r => r.dateKey == dk) = some rec)
    (hge : effectiveAutofixLimit sub cfg ≤ rec.consumed) :
    applyAutofix records sub dk cfg = none := by
  unfold applyAutofix
  rw [hrec]
  dsimp only
  rw [if_pos hge]

/-- C7: on the Free plan, with the day's counter row present, an exhaustion
remainder is fully covered (the call succeeds, the counter is incremented,
and an event with the auto-fix flag is emitted) whenever `consumed < limit`,
and fails with `AutoFixLimitExceeded` once `consumed` has reached the limit;
with `limit = 3`, four consecutive exhaustion events on the same calendar day
give three successful covers and a fourth failure. -/
theorem autofix_daily_cap
    (s : LedgerState) (ct : CreditType) (amount : Int) (action : String)
    (ah : Option String) (ap : Bool) (now : Time) (dk : String) (cfg : Int)
    (sub : UserSubscription) (rec : AllowanceDailyAutofix)
    (hpos : 0 < amount)
    (hfresh : (ah.bind fun hh => s.events.find? (fun e => e.actionHash == hh)) = none)
    (hrem : 0 < (drainPhase s ct amount now).remaining)
    (hsub : getPrimarySubscription s = some sub)
    (hfree : pyLower sub.planName = "free")
    (hrec : s.autofixRecords.find? (fun r => r.dateKey == dk) = some rec) :
    (rec.consumed < effectiveAutofixLimit sub cfg →
      ∃ ev, consume s ct amount action ah ap now dk cfg
        = ({ (drainPhase s ct amount now).state with
             autofixRecords := s.autofixRecords.map (fun x =>
               if x.dateKey == dk then { rec with consumed := rec.consumed + 1 } else x),
             events := s.events ++ [ev] },
           Except.ok { event := ev,
                       totalDeducted := (drainPhase s ct amount now).totalDeducted,
                       paygChargeId := none, autofixApplied := true }))
    ∧ (effectiveAutofixLimit sub cfg ≤ rec.consumed →
      consume s ct amount action ah ap now dk cfg
        = ((drainPhase s ct amount now).state,
           Except.error ConsumeError.autofixLimitExceeded))
    ∧ (okWithAutofix (exStep7 exC7).2 = true
       ∧ okWithAutofix (exStep7 (exStep7 exC7).1).2 = true
       ∧ okWithAutofix (exStep7 (exStep7 (exStep7 exC7).1).1).2 = true
       ∧ errValue (exStep7 (exStep7 (exStep7 (exStep7 exC7).1).1).1).2
           = some ConsumeError.autofixLimitExceeded
       ∧ (exStep7 (exStep7 (exStep7 exC7).1).1).1.autofixRecords
           = [{ dateKey := "2026-01-01", consumed := 3, limit := 3 }]) := by
  refine ⟨?_, ?_, by decide, by decide, by decide, by decide, by decide⟩
  · intro hlt
    unfold consume
    rw [if_neg (by omega), hfresh]
    dsimp only
    unfold consumeCore
    rw [if_pos hrem, getPrimarySubscription_drainPhase, hsub]
    dsimp only
    rw [if_pos (by simp [hfree]), drainPhase_autofixRecords,
      applyAutofix_below_limit s.autofixRecords sub dk cfg rec hrec hlt]
    exact ⟨_, rfl⟩
  · intro hge
    unfold consume
    rw [if_neg (by omega), hfresh]
    show (consumeCore s ct amount action ah ap now dk cfg) = _
    unfold consumeCore
    rw [if_pos hrem, getPrimarySubscription_drainPhase, hsub]
    dsimp only
    rw [if_pos (by simp [hfree]), drainPhase_autofixRecords,
      applyAutofix_at_limit s.autofixRecords sub dk cfg rec hrec hge]

/-- C7 witness: a Free-plan user whose day counter shows 2 of 3 gets the
remainder covered with the counter bumped to 3. -/
theorem autofix_daily_cap_witness :
    ∃ ev, consume (exStep7 (exStep7 exC7).1).1 CreditType.BC 5 "a" none true 0 "2026-01-01" 3
      = ({ (drainPhase (exStep7 (exStep7 exC7).1).1 CreditType.BC 5 0).state with
           autofixRecords := (exStep7 (exStep7 exC7).1).1.autofixRecords.map (fun x =>
             if x.dateKey == "2026-01-01" then
               { dateKey := "2026-01-01", consumed := 3, limit := 3 } else x),
           events := (exStep7 (exStep7 exC7).1).1.events ++ [ev] },
         Except.ok { event := ev,
                     totalDeducted :=
                       (drainPhase (exStep7 (exStep7 exC7).1).1 CreditType.BC 5 0).totalDeducted,
                     paygChargeId := none, autofixApplied := true }) :=
  (autofix_daily_cap (exStep7 (exStep7 exC7).1).1 CreditType.BC 5 "a" none true 0
    "2026-01-01" 3 exSubFree { dateKey := "2026-01-01", consumed := 2, limit := 3 }
    (by decide) rfl (by decide) (by decide) (by decide) (by decide)).1 (by decide)

/-! ### C8: PAYG overage generation for the unmet remainder -/

/-- C8: for a non-free-plan subscriber with PAYG enabled and the caller
allowing it, an unmet remainder yields a `pending` OverageCharge of exactly
the remainder and the call succeeds with a consumption event; a Pro-plan user
with zero Usage credit consuming 40 gets a pending charge of 40. -/
theorem payg_overage_charge
    (s : LedgerState) (ct : CreditType) (amount : Int) (action : String)
    (ah : Option String) (ap : Bool) (now : Time) (dk : String) (cfg : Int)
    (sub : UserSubscription)
    (hpos : 0 < amount)
    (hfresh : (ah.bind fun hh => s.events.find? (fun e => e.actionHash == hh)) = none)
    (hrem : 0 < (drainPhase s ct amount now).remaining)
    (hsub : getPrimarySubscription s = some sub)
    (hnotfree : pyLower sub.planName ≠ "free")
    (hpayg : sub.paygEnabled = true) (hap : ap = true) :
    (∃ ev, consume s ct amount action ah ap now dk cfg
        = ({ (drainPhase s ct amount now).state with
             charges := s.charges ++
               [{ oid := freshChargeId (drainPhase s ct amount now).state, metric := ct,
                  amount := (drainPhase s ct amount now).remaining,
                  status := OverageChargeStatus.PENDING }],
             events := s.events ++ [ev] },
           Except.ok { event := ev,
                       totalDeducted := (drainPhase s ct amount now).totalDeducted,
                       paygChargeId := some (freshChargeId (drainPhase s ct amount now).state),
                       autofixApplied := false }))
    ∧ (consume exC8 CreditType.USAGE 40 "m" none true 0 "d" 3).1.charges
        = [{ oid := 1, metric := CreditType.USAGE, amount := 40,
             status := OverageChargeStatus.PENDING }]
    ∧ isOk (consume exC8 CreditType.USAGE 40 "m" none true 0 "d" 3).2 = true := by
  refine ⟨?_, by decide, by decide⟩
  unfold consume
  rw [if_neg (by omega), hfresh]
  dsimp only
  unfold consumeCore
  rw [if_pos hrem, getPrimarySubscription_drainPhase, hsub]
  dsimp only
  rw [if_neg (by simp [hnotfree]), if_pos (by rw [hpayg, hap]; rfl)]
  exact ⟨_, rfl⟩

/-- C8 witness: the Pro-plan Usage scenario yields the pending charge of 40. -/
theorem payg_overage_charge_witness :
    (consume exC8 CreditType.USAGE 40 "m" none true 0 "d" 3).1.charges
      = [{ oid := 1, metric := CreditType.USAGE, amount := 40,
           status := OverageChargeStatus.PENDING }] :=
  (payg_overage_charge exC8 CreditType.USAGE 40 "m" none true 0 "d" 3 exSubPro
    (by decide) rfl (by decide) (by decide) (by decide) (by decide) rfl).2.1

end Billing

namespace Billing

/-! ### C2: balances never go negative -/

theorem drainPhase_inv (s : LedgerState) (ct : CreditType) (amount : Int) (now : Time)
    (hwf : WF s) (hinv : Inv s) : Inv (drainPhase s ct amount now).state := by
  constructor
  · intro a' ha'
    rw [show (drainPhase s ct amount now).state.allowances
        = applyAllowanceUpdates s.allowances (drainAllowances (iterAllowances s ct now)
            (drainBuckets (iterRolloverBuckets s ct now) amount).2).updates from rfl] at ha'
    unfold applyAllowanceUpdates at ha'
    obtain ⟨a, ha, heq⟩ := List.mem_map.mp ha'
    subst heq
    unfold allowanceApply
    cases hl : List.lookup a.aid (drainAllowances (iterAllowances s ct now)
        (drainBuckets (iterRolloverBuckets s ct now) amount).2).updates with
    | none => exact hinv.1 a ha
    | some u =>
        obtain ⟨a0, ha0, hk, _, hub⟩ :=
          drainAllowances_updates_bound _ _ _ (lookup_mem _ hl)
        have ha0s : a0 ∈ s.allowances := (mem_iterAllowances.mp ha0).1
        have heqa : a0 = a :=
          List.inj_on_of_nodup_map hwf ha0s ha (by exact hk.symm)
        subst heqa
        exact hub
  · intro b' hb'
    rw [show (drainPhase s ct amount now).state.buckets
        = applyBucketUpdates s.buckets
            (drainBuckets (iterRolloverBuckets s ct now) amount).1 from rfl] at hb'
    unfold applyBucketUpdates at hb'
    obtain ⟨b, hb, heq⟩ := List.mem_map.mp hb'
    subst heq
    unfold bucketApply
    cases hl : List.lookup b.bid (drainBuckets (iterRolloverBuckets s ct now) amount).1 with
    | none => exact hinv.2 b hb
    | some r =>
        exact drainBuckets_updates_nonneg _ _ _ (lookup_mem _ hl)

theorem consume_fst_pools (s : LedgerState) (ct : CreditType) (amount : Int)
    (action : String) (ah : Option String) (ap : Bool) (now : Time) (dk : String)
    (cfg : Int) :
    ((consume s ct amount action ah ap now dk cfg).1.allowances = s.allowances
      ∧ (consume s ct amount action ah ap now dk cfg).1.buckets = s.buckets)
    ∨ ((consume s ct amount action ah ap now dk cfg).1.allowances
          = (drainPhase s ct amount now).state.allowances
      ∧ (consume s ct amount action ah ap now dk cfg).1.buckets
          = (drainPhase s ct amount now).state.buckets) := by
  unfold consume
  split
  · left; exact ⟨rfl, rfl⟩
  · split
    · left; exact ⟨rfl, rfl⟩
    · right
      unfold consumeCore
      repeat' split
      all_goals exact ⟨rfl, rfl⟩

theorem consume_fst_wf (s : LedgerState) (ct : CreditType) (amount : Int)
    (action : String) (ah : Option String) (ap : Bool) (now : Time) (dk : String)
    (cfg : Int) (hwf : WF s) : WF (consume s ct amount action ah ap now dk cfg).1 := by
  rcases consume_fst_pools s ct amount action ah ap now dk cfg with ⟨h1, _⟩ | ⟨h1, _⟩
  · unfold WF
    rw [h1]
    exact hwf
  · unfold WF
    rw [h1, show (drainPhase s ct amount now).state.allowances
        = applyAllowanceUpdates s.allowances (drainAllowances (iterAllowances s ct now)
            (drainBuckets (iterRolloverBuckets s ct now) amount).2).updates from rfl,
      applyAllowanceUpdates_map_aid]
    exact hwf

theorem consume_preserves_inv (s : LedgerState) (ct : CreditType) (amount : Int)
    (action : String) (ah : Option String) (ap : Bool) (now : Time) (dk : String)
    (cfg : Int) (hwf : WF s) (hinv : Inv s) :
    Inv (consume s ct amount action ah ap now dk cfg).1 := by
  rcases consume_fst_pools s ct amount action ah ap now dk cfg with ⟨h1, h2⟩ | ⟨h1, h2⟩
  · unfold Inv
    rw [h1, h2]
    exact hinv
  · have hdp := drainPhase_inv s ct amount now hwf hinv
    unfold Inv
    rw [h1, h2]
    exact hdp

/-- C2: starting from a well-formed store whose balances satisfy
`used ≤ total` and `remain ≥ 0`, any sequence of `consume` calls preserves
both invariants — each step only deducts `min(available, remaining)` from a
pool, so no balance ever goes negative. -/
theorem consume_sequence_preserves_invariants
    (s : LedgerState) (cs : List Call) (hwf : WF s) (hinv : Inv s) :
    Inv (runCalls s cs) := by
  induction cs generalizing s with
  | nil => exact hinv
  | cons c cs ih =>
      show Inv (runCalls (consume s c.ct c.amount c.action c.actionHash c.allowPayg
        c.now c.dateKey c.cfgAutofixLimit).1 cs)
      exact ih _
        (consume_fst_wf s c.ct c.amount c.action c.actionHash c.allowPayg c.now
          c.dateKey c.cfgAutofixLimit hwf)
        (consume_preserves_inv s c.ct c.amount c.action c.actionHash c.allowPayg c.now
          c.dateKey c.cfgAutofixLimit hwf hinv)

/-- C2 witness: a covered call followed by an overdrawing call still leaves
`used ≤ total` and `remain ≥ 0` everywhere. -/
theorem consume_sequence_preserves_invariants_witness :
    Inv (runCalls exC5 exCalls) :=
  consume_sequence_preserves_invariants exC5 exCalls (by unfold WF; decide)
    (by unfold Inv; exact ⟨by decide, by decide⟩)

end Billing

namespace Billing

/-! ### C9: `would_consume` is read-only and reports the available sums -/

theorem wouldConsume_fst (s : LedgerState) (ct : CreditType) (amount : Int) (now : Time) :
    (wouldConsume s ct amount now).1 = s := by
  unfold wouldConsume
  split <;> rfl

/-- C9: `would_consume` validates the amount, returns the sum of non-expired
allowance remainders plus the sum of non-expired rollover remainders, and
leaves the state exactly as it was — iterating it any number of times changes
nothing. -/
theorem wouldConsume_readonly_sum (s : LedgerState) (ct : CreditType) (amount : Int)
    (now : Time) (hpos : 0 < amount) :
    wouldConsume s ct amount now
      = (s, Except.ok
          (((s.allowances.filter (fun a => a.ctype == ct && notExpired a.expiresAt now)).map
              (fun a => max (a.total - a.used) 0)).sum
            + ((s.buckets.filter (fun b => bucketHasType s b ct
                && notExpired b.expiresAt now)).map (fun b => b.remain)).sum,
           ((s.buckets.filter (fun b => bucketHasType s b ct
                && notExpired b.expiresAt now)).map (fun b => b.remain)).sum))
    ∧ ∀ n, wouldConsumeN ct amount now n s = s := by
  constructor
  · unfold wouldConsume
    rw [if_neg (by omega)]
    have hsum : ((iterAllowances s ct now).map (fun a => max (a.total - a.used) 0)).sum
        = ((s.allowances.filter (fun a => a.ctype == ct && notExpired a.expiresAt now)).map
            (fun a => max (a.total - a.used) 0)).sum :=
      ((List.perm_insertionSort _ _).map _).sum_eq
    dsimp only
    rw [hsum]
    rfl
  · intro n
    induction n with
    | zero => rfl
    | succ n ih =>
        show wouldConsumeN ct amount now n (wouldConsume s ct amount now).1 = s
        rw [wouldConsume_fst]
        exact ih

/-- C9 witness: on the concrete ledger the pre-flight query reports
`(150, 50)` and returns the state unchanged. -/
theorem wouldConsume_readonly_sum_witness :
    wouldConsume exC5 CreditType.BC 30 0 = (exC5, Except.ok (150, 50)) :=
  (wouldConsume_readonly_sum exC5 CreditType.BC 30 0 (by decide)).1

/-! ### C10: sub-half-unit readings accumulate without charging credit -/

theorem pyRound_nonpos (q : Rat) (h : q < 1 / 2) : pyRound q ≤ 0 := by
  unfold pyRound
  have h1 : q < 1 := lt_trans h (by norm_num)
  have hf0 : ⌊q⌋ ≤ 0 := by
    have hlt : ⌊q⌋ < 1 := Int.floor_lt.mpr (by exact_mod_cast h1)
    omega
  split
  · exact hf0
  · next h2 =>
      have hle : (1 : ℚ) / 2 ≤ q - ⌊q⌋ := not_lt.mp h2
      have hneg : ((⌊q⌋ : ℚ)) < 0 := by linarith
      have hfneg : ⌊q⌋ < 0 := by exact_mod_cast hneg
      split
      · omega
      · split <;> omega

theorem summaryValue_upsert (ss : List UsageSummary) (w m p : String) (inc : Rat) :
    summaryValue (upsertSummary ss w m p inc) w m p = summaryValue ss w m p + inc := by
  induction ss with
  | nil => simp [upsertSummary, summaryValue]
  | cons x ss ih =>
      unfold upsertSummary
      by_cases hx : (x.workspaceId == w && x.metric == m && x.period == p) = true
      · rw [if_pos hx]
        show (if x.workspaceId == w && x.metric == m && x.period == p then x.value + inc
              else summaryValue ss w m p)
          = (if x.workspaceId == w && x.metric == m && x.period == p then x.value
              else summaryValue ss w m p) + inc
        rw [if_pos hx, if_pos hx]
      · rw [if_neg hx]
        show (if x.workspaceId == w && x.metric == m && x.period == p then x.value
              else summaryValue (upsertSummary ss w m p inc) w m p)
          = (if x.workspaceId == w && x.metric == m && x.period == p then x.value
              else summaryValue ss w m p) + inc
        rw [if_neg hx, if_neg hx, ih]

/-- C10: `record_usage` with consumption enabled deducts `max(round(value), 0)`
credits, so a reading below one half rounds to zero: no `consume` call is made
(result `none`, ledger untouched) while the raw fractional value still lands
in the summary; consequently any number of sub-half readings accumulates their
exact sum in the summary with the ledger unchanged throughout. -/
theorem recordUsage_subhalf_accumulates
    (u : UsageState) (w m p : String) (now : Time) (dk : String) (cfg : Int) :
    (∀ v : Rat, v < 1 / 2 →
      recordUsage u w m v p true now dk cfg
        = ({ ledger := u.ledger,
             readings := u.readings ++
               [{ workspaceId := w, metric := m, value := v, period := p }],
             summaries := upsertSummary u.summaries w m p v }, none))
    ∧ (∀ vs : List Rat, (∀ v ∈ vs, v < 1 / 2) →
        (runReadings w m p now dk cfg u vs).ledger = u.ledger
        ∧ summaryValue (runReadings w m p now dk cfg u vs).summaries w m p
            = summaryValue u.summaries w m p + vs.sum) := by
  have key : ∀ (u' : UsageState) (v : Rat), v < 1 / 2 →
      recordUsage u' w m v p true now dk cfg
        = ({ ledger := u'.ledger,
             readings := u'.readings ++
               [{ workspaceId := w, metric := m, value := v, period := p }],
             summaries := upsertSummary u'.summaries w m p v }, none) := by
    intro u' v hv
    unfold recordUsage
    rw [if_pos rfl, if_neg (by have := pyRound_nonpos v hv; omega)]
  refine ⟨fun v hv => key u v hv, ?_⟩
  suffices hgen : ∀ (vs : List Rat), (∀ v ∈ vs, v < 1 / 2) → ∀ (u' : UsageState),
      (runReadings w m p now dk cfg u' vs).ledger = u'.ledger
      ∧ summaryValue (runReadings w m p now dk cfg u' vs).summaries w m p
          = summaryValue u'.summaries w m p + vs.sum by
    exact fun vs hall => hgen vs hall u
  intro vs
  induction vs with
  | nil =>
      intro _ u'
      exact ⟨rfl, by simp [runReadings]⟩
  | cons v vs ih =>
      intro hall u'
      show (runReadings w m p now dk cfg (recordUsage u' w m v p true now dk cfg).1 vs).ledger
            = u'.ledger
        ∧ summaryValue (runReadings w m p now dk cfg
            (recordUsage u' w m v p true now dk cfg).1 vs).summaries w m p
            = summaryValue u'.summaries w m p + (v :: vs).sum
      rw [key u' v (hall v (List.mem_cons_self _ _))]
      obtain ⟨ih1, ih2⟩ := ih (fun x hx => hall x (List.mem_cons_of_mem _ hx))
        { ledger := u'.ledger,
          readings := u'.readings ++
            [{ workspaceId := w, metric := m, value := v, period := p }],
          summaries := upsertSummary u'.summaries w m p v }
      refine ⟨ih1, ?_⟩
      rw [ih2]
      show summaryValue (upsertSummary u'.summaries w m p v) w m p + vs.sum
        = summaryValue u'.summaries w m p + (v :: vs).sum
      rw [summaryValue_upsert, List.sum_cons]
      ring

/-- C10 witness: a 0.49 reading is stored and summarised but never charged. -/
theorem recordUsage_subhalf_accumulates_witness :
    recordUsage exU10 "w" "bw" (49 / 100) "per" true 0 "d" 3
      = ({ ledger := exU10.ledger,
           readings := exU10.readings ++
             [{ workspaceId := "w", metric := "bw", value := 49 / 100, period := "per" }],
           summaries := upsertSummary exU10.summaries "w" "bw" "per" (49 / 100) }, none) :=
  (recordUsage_subhalf_accumulates exU10 "w" "bw" "per" 0 "d" 3).1 (49 / 100) (by norm_num)

end Billing

namespace Billing

/-! ### C6: rollover conversion on plan re-activation -/

theorem activatePlan_exC6_eq : activatePlan exC6 exPlan6 0 0 = exActivated6 := by
  have husage : usageQuota exPlan6 0 = 0 := by norm_num [usageQuota, exPlan6, pyInt]
  unfold activatePlan
  rw [husage]
  decide

/-- C6 counterexample: re-activating plan 9 at cycle start `0` rolls the
unconsumed 250 into a bucket expiring at `60 * oneDay`, not at the claimed
new-cycle-start-plus-30-days (`0 + 30 * oneDay`): the code adds 30 days to
the new period *end*. -/
theorem rollover_expiry_counterexample :
    (activatePlan exC6 exPlan6 0 0).buckets.map (fun b => b.expiresAt) = [some (60 * oneDay)]
    ∧ ¬((activatePlan exC6 exPlan6 0 0).buckets.map (fun b => b.expiresAt)
        = [some ((0 : Time) + 30 * oneDay)]) := by
  rw [activatePlan_exC6_eq]
  exact ⟨by decide, by decide⟩

/-- C6 (amended): re-seeding an existing allowance under the `one_cycle`
policy converts the unconsumed `total - used` into a bucket whose expiry is
the *allowance expiry passed in* plus 30 days — for `activate_plan` that is
the new period end, so the bucket expires 60 days after the new cycle start —
and resets the allowance to `used = 0, total = new quota`; under the `none`
policy no bucket is created. -/
theorem upsert_rollover_conversion
    (s : LedgerState) (pid : Nat) (ct : CreditType) (total : Int)
    (expiresAt now : Time) (existing : Allowance)
    (hfind : s.allowances.find? (fun a => a.planId == some pid && a.ctype == ct)
      = some existing)
    (hpos : 0 < existing.total - existing.used) :
    (upsertAllowance s pid ct total RolloverPolicy.ONE_CYCLE expiresAt now).buckets
      = s.buckets ++ [{ bid := freshBucketId s, allowanceId := existing.aid,
                        remain := existing.total - existing.used,
                        expiresAt := some (expiresAt + 30 * oneDay), createdAt := now }]
    ∧ (upsertAllowance s pid ct total RolloverPolicy.ONE_CYCLE expiresAt now).allowances
        = s.allowances.map (fun a =>
            if a.aid == existing.aid then
              { a with total := total, used := 0,
                       rolloverPolicy := RolloverPolicy.ONE_CYCLE,
                       expiresAt := some expiresAt }
            else a)
    ∧ (upsertAllowance s pid ct total RolloverPolicy.NONE expiresAt now).buckets = s.buckets
    ∧ (activatePlan exC6 exPlan6 0 0).buckets.map (fun b => b.expiresAt)
        = [some ((0 + 30 * oneDay) + 30 * oneDay)] := by
  have hmax : max (existing.total - existing.used) 0 = existing.total - existing.used := by
    omega
  refine ⟨?_, ?_, ?_, ?_⟩
  · unfold upsertAllowance
    rw [hfind]
    dsimp only
    rw [if_pos ⟨by omega, by decide⟩, hmax]
    rfl
  · unfold upsertAllowance
    rw [hfind]
    dsimp only
    rw [if_pos ⟨by omega, by decide⟩]
  · unfold upsertAllowance
    rw [hfind]
    dsimp only
    rw [if_neg (fun hc => hc.2 rfl)]
  · rw [activatePlan_exC6_eq]
    decide

/-- C6 amended-claim witness: re-seeding the 400/150 allowance with a 500
quota yields the 250-credit bucket expiring 30 days after the passed expiry. -/
theorem upsert_rollover_conversion_witness :
    (upsertAllowance exC6 9 CreditType.BC 500 RolloverPolicy.ONE_CYCLE (30 * oneDay) 0).buckets
      = exC6.buckets ++ [{ bid := 1, allowanceId := 1, remain := 250,
                           expiresAt := some (30 * oneDay + 30 * oneDay), createdAt := 0 }] :=
  (upsert_rollover_conversion exC6 9 CreditType.BC 500 (30 * oneDay) 0 exA6
    (by decide) (by decide)).1

end Billing

namespace Billing

/-! ### C4: helpers — after a failed call every eligible pool is empty -/

theorem bucketApply_of_lookup_none (us : List (Nat × Int)) (b : RolloverBucket)
    (hl : us.lookup b.bid = none) : bucketApply us b = b := by
  unfold bucketApply
  rw [hl]

theorem bucketApply_of_lookup_some (us : List (Nat × Int)) (b : RolloverBucket) (r : Int)
    (hl : us.lookup b.bid = some r) : bucketApply us b = { b with remain := r } := by
  unfold bucketApply
  rw [hl]

theorem allowanceApply_of_lookup_none (us : List (Nat × Int)) (a : Allowance)
    (hl : us.lookup a.aid = none) : allowanceApply us a = a := by
  unfold allowanceApply
  rw [hl]

theorem allowanceApply_of_lookup_some (us : List (Nat × Int)) (a : Allowance) (u : Int)
    (hl : us.lookup a.aid = some u) : allowanceApply us a = { a with used := u } := by
  unfold allowanceApply
  rw [hl]

/-- After a `consume` whose drains still left a positive remainder, re-running
the drain phase at any later time deducts nothing at all. -/
theorem drainPhase_exhausted_again (s : LedgerState) (ct : CreditType) (amount : Int)
    (now now2 : Time) (hle : now ≤ now2) (hwf : WF s)
    (hrem : 0 < (drainPhase s ct amount now).remaining) :
    drainPhase (drainPhase s ct amount now).state ct amount now2
      = ⟨(drainPhase s ct amount now).state, amount, 0, none⟩ := by
  have hrem' : 0 < (drainAllowances (iterAllowances s ct now)
      (drainBuckets (iterRolloverBuckets s ct now) amount).2).remaining := hrem
  have hrb2 : 0 < (drainBuckets (iterRolloverBuckets s ct now) amount).2 := by
    have h1 := drainAllowances_remaining_le (iterAllowances s ct now)
      (drainBuckets (iterRolloverBuckets s ct now) amount).2
    omega
  obtain ⟨hbvals, hbkeys⟩ := drainBuckets_exhausted (iterRolloverBuckets s ct now) amount hrb2
  obtain ⟨havals, hakeys⟩ := drainAllowances_exhausted (iterAllowances s ct now)
    (drainBuckets (iterRolloverBuckets s ct now) amount).2 hrem'
  have hbempty : ∀ b ∈ (drainPhase s ct amount now).state.buckets,
      ¬(bucketHasType (drainPhase s ct amount now).state b ct
        && notExpired b.expiresAt now2 && decide (0 < b.remain)) = true := by
    intro b hb hcontra
    simp only [Bool.and_eq_true, decide_eq_true_eq] at hcontra
    obtain ⟨⟨hty, hexp⟩, hpos⟩ := hcontra
    rw [show (drainPhase s ct amount now).state.buckets
        = applyBucketUpdates s.buckets (drainBuckets (iterRolloverBuckets s ct now) amount).1
        from rfl] at hb
    unfold applyBucketUpdates at hb
    obtain ⟨b0, hb0, heq⟩ := List.mem_map.mp hb
    cases hl : List.lookup b0.bid (drainBuckets (iterRolloverBuckets s ct now) amount).1 with
    | some r =>
        rw [bucketApply_of_lookup_some _ _ _ hl] at heq
        subst heq
        have hposr : (0 : Int) < r := hpos
        have hr0 : r = 0 := hbvals _ (lookup_mem _ hl)
        omega
    | none =>
        rw [bucketApply_of_lookup_none _ _ hl] at heq
        subst heq
        rw [bucketHasType_drainPhase] at hty
        have hexp0 : notExpired b0.expiresAt now = true := notExpired_mono _ _ _ hle hexp
        have hmem : b0 ∈ iterRolloverBuckets s ct now :=
          mem_iterRolloverBuckets.mpr ⟨hb0, by
            simp only [Bool.and_eq_true, decide_eq_true_eq]
            exact ⟨⟨hty, hexp0⟩, hpos⟩⟩
        obtain ⟨p, hp, hpk⟩ := hbkeys b0 hmem hpos
        have hpp : (b0.bid, p.2) ∈ (drainBuckets (iterRolloverBuckets s ct now) amount).1 := by
          rw [← hpk]
          exact hp
        have hsome := lookup_isSome_of_mem _ hpp
        rw [hl] at hsome
        simp at hsome
  have hiterb : iterRolloverBuckets (drainPhase s ct amount now).state ct now2 = [] := by
    unfold iterRolloverBuckets
    rw [List.filter_eq_nil_iff.mpr hbempty]
    rfl
  have haempty : ∀ a ∈ iterAllowances (drainPhase s ct amount now).state ct now2,
      a.total - a.used ≤ 0 := by
    intro a ha
    obtain ⟨hmem, hpred⟩ := mem_iterAllowances.mp ha
    simp only [Bool.and_eq_true] at hpred
    obtain ⟨hty, hexp⟩ := hpred
    rw [show (drainPhase s ct amount now).state.allowances
        = applyAllowanceUpdates s.allowances (drainAllowances (iterAllowances s ct now)
            (drainBuckets (iterRolloverBuckets s ct now) amount).2).updates from rfl] at hmem
    unfold applyAllowanceUpdates at hmem
    obtain ⟨a0, ha0, heq⟩ := List.mem_map.mp hmem
    cases hl : List.lookup a0.aid (drainAllowances (iterAllowances s ct now)
        (drainBuckets (iterRolloverBuckets s ct now) amount).2).updates with
    | some u =>
        rw [allowanceApply_of_lookup_some _ _ _ hl] at heq
        subst heq
        obtain ⟨a1, ha1, hk, hval⟩ := havals _ (lookup_mem _ hl)
        have ha1s : a1 ∈ s.allowances := (mem_iterAllowances.mp ha1).1
        have heqa : a1 = a0 := List.inj_on_of_nodup_map hwf ha1s ha0 hk.symm
        subst heqa
        show a1.total - u ≤ 0
        omega
    | none =>
        rw [allowanceApply_of_lookup_none _ _ hl] at heq
        subst heq
        by_contra hc
        push_neg at hc
        have hexp0 : notExpired a0.expiresAt now = true := notExpired_mono _ _ _ hle hexp
        have hmem0 : a0 ∈ iterAllowances s ct now :=
          mem_iterAllowances.mpr ⟨ha0, by
            simp only [Bool.and_eq_true]
            exact ⟨hty, hexp0⟩⟩
        obtain ⟨p, hp, hpk⟩ := hakeys a0 hmem0 hc
        have hpp : (a0.aid, p.2) ∈ (drainAllowances (iterAllowances s ct now)
            (drainBuckets (iterRolloverBuckets s ct now) amount).2).updates := by
          rw [← hpk]
          exact hp
        have hsome := lookup_isSome_of_mem _ hpp
        rw [hl] at hsome
        simp at hsome
  set t := (drainPhase s ct amount now).state with ht
  unfold drainPhase
  rw [hiterb]
  dsimp only [drainBuckets]
  rw [drainAllowances_empty _ _ haempty]
  dsimp only
  rw [applyBucketUpdates_nil, applyAllowanceUpdates_nil, sub_self]

/-- A state whose drain phase deducts nothing sends `consumeCore` straight to
the fallback decision. -/
theorem consumeCore_no_pools (t : LedgerState) (ct : CreditType) (amount : Int)
    (action : String) (ah : Option String) (ap : Bool) (now2 : Time) (dk2 : String)
    (cfg : Int) (hamt : 0 < amount)
    (hdp : drainPhase t ct amount now2 = ⟨t, amount, 0, none⟩) :
    consumeCore t ct amount action ah ap now2 dk2 cfg
      = (match getPrimarySubscription t with
         | some sub =>
             if pyLower sub.planName == "free" then
               match applyAutofix t.autofixRecords sub dk2 cfg with
               | some recs =>
                   finishOk { t with autofixRecords := recs.1 } none amount 0 action ah
                     now2 true none
               | none => (t, Except.error ConsumeError.autofixLimitExceeded)
             else if sub.paygEnabled && ap then
               finishOk { t with charges := t.charges ++
                   [{ oid := freshChargeId t, metric := ct, amount := amount,
                      status := OverageChargeStatus.PENDING }] }
                 none amount 0 action ah now2 false (some (freshChargeId t))
             else (t, Except.error ConsumeError.allowanceExhausted)
         | none => (t, Except.error ConsumeError.allowanceExhausted)) := by
  unfold consumeCore
  rw [hdp]
  dsimp only
  rw [if_pos hamt]

end Billing

namespace Billing

/-- C4: a failed `consume` (allowance exhaustion or auto-fix cap) is safe to
retry: the retry deducts nothing further from any allowance or rollover
bucket, and a same-day retry reproduces exactly the original failure on the
unchanged state — so the combined balance effect of the failed call plus its
retry equals that of a single failed call. -/
theorem consume_failed_retry_no_double_charge
    (s s1 : LedgerState) (ct : CreditType) (amount : Int) (action : String)
    (ah : Option String) (ap : Bool) (now now2 : Time) (dk dk2 : String) (cfg : Int)
    (err : ConsumeError) (hwf : WF s) (hle : now ≤ now2)
    (hfail : consume s ct amount action ah ap now dk cfg = (s1, Except.error err)) :
    (consume s1 ct amount action ah ap now2 dk2 cfg).1.allowances = s1.allowances
    ∧ (consume s1 ct amount action ah ap now2 dk2 cfg).1.buckets = s1.buckets
    ∧ (dk2 = dk → consume s1 ct amount action ah ap now2 dk2 cfg
        = (s1, Except.error err)) := by
  by_cases hamt : amount ≤ 0
  · unfold consume at hfail
    rw [if_pos hamt] at hfail
    rw [Prod.mk.injEq] at hfail
    obtain ⟨hs1, herr⟩ := hfail
    subst hs1
    refine ⟨?_, ?_, ?_⟩
    · unfold consume
      rw [if_pos hamt]
    · unfold consume
      rw [if_pos hamt]
    · intro _
      unfold consume
      rw [if_pos hamt, herr]
  · have hamt' : 0 < amount := by omega
    unfold consume at hfail
    rw [if_neg hamt] at hfail
    cases hfind : (ah.bind fun hh => List.find? (fun e => e.actionHash == hh) s.events) with
    | some e =>
        rw [hfind] at hfail
        exact absurd hfail (by simp [Prod.ext_iff])
    | none =>
        rw [hfind] at hfail
        have hcore : consumeCore s ct amount action ah ap now dk cfg
            = (s1, Except.error err) := hfail
        by_cases hrem : 0 < (drainPhase s ct amount now).remaining
        · unfold consumeCore at hcore
          rw [if_pos hrem, getPrimarySubscription_drainPhase] at hcore
          cases hsub : getPrimarySubscription s with
          | none =>
              rw [hsub] at hcore
              have hcore' : ((drainPhase s ct amount now).state,
                  (Except.error ConsumeError.allowanceExhausted :
                    Except ConsumeError ConsumeOk)) = (s1, Except.error err) := hcore
              rw [Prod.mk.injEq] at hcore'
              obtain ⟨hs1, herr⟩ := hcore'
              have herr' : err = ConsumeError.allowanceExhausted := by
                have h := herr
                simp only [Except.error.injEq] at h
                exact h.symm
              have hs1' : s1 = (drainPhase s ct amount now).state := hs1.symm
              subst hs1'
              have hdp2 := drainPhase_exhausted_again s ct amount now now2 hle hwf hrem
              have hfind1 : (ah.bind fun hh => List.find? (fun e => e.actionHash == hh)
                  (drainPhase s ct amount now).state.events) = none := hfind
              have hretry : consume (drainPhase s ct amount now).state ct amount action
                  ah ap now2 dk2 cfg
                  = consumeCore (drainPhase s ct amount now).state ct amount action
                      ah ap now2 dk2 cfg := by
                unfold consume
                rw [if_neg hamt, hfind1]
              have hcm := consumeCore_no_pools (drainPhase s ct amount now).state ct amount
                action ah ap now2 dk2 cfg hamt' hdp2
              have hsub1 : getPrimarySubscription (drainPhase s ct amount now).state
                  = none := by
                rw [getPrimarySubscription_drainPhase]
                exact hsub
              rw [hsub1] at hcm
              refine ⟨?_, ?_, ?_⟩
              · rw [hretry, hcm]
              · rw [hretry, hcm]
              · intro _
                rw [hretry, hcm, herr']
          | some sub =>
              rw [hsub] at hcore
              dsimp only at hcore
              by_cases hfree : (pyLower sub.planName == "free") = true
              · rw [if_pos hfree] at hcore
                cases happly0 : applyAutofix (drainPhase s ct amount now).state.autofixRecords
                    sub dk cfg with
                | some recs =>
                    rw [happly0] at hcore
                    exact absurd hcore (by simp [finishOk, Prod.ext_iff])
                | none =>
                    rw [happly0] at hcore
                    have hcore' : ((drainPhase s ct amount now).state,
                        (Except.error ConsumeError.autofixLimitExceeded :
                          Except ConsumeError ConsumeOk)) = (s1, Except.error err) := hcore
                    rw [Prod.mk.injEq] at hcore'
                    obtain ⟨hs1, herr⟩ := hcore'
                    have herr' : err = ConsumeError.autofixLimitExceeded := by
                      have h := herr
                      simp only [Except.error.injEq] at h
                      exact h.symm
                    have hs1' : s1 = (drainPhase s ct amount now).state := hs1.symm
                    subst hs1'
                    have hdp2 := drainPhase_exhausted_again s ct amount now now2 hle hwf hrem
                    have hfind1 : (ah.bind fun hh => List.find? (fun e => e.actionHash == hh)
                        (drainPhase s ct amount now).state.events) = none := hfind
                    have hretry : consume (drainPhase s ct amount now).state ct amount action
                        ah ap now2 dk2 cfg
                        = consumeCore (drainPhase s ct amount now).state ct amount action
                            ah ap now2 dk2 cfg := by
                      unfold consume
                      rw [if_neg hamt, hfind1]
                    have hcm := consumeCore_no_pools (drainPhase s ct amount now).state ct
                      amount action ah ap now2 dk2 cfg hamt' hdp2
                    have hsub1 : getPrimarySubscription (drainPhase s ct amount now).state
                        = some sub := by
                      rw [getPrimarySubscription_drainPhase]
                      exact hsub
                    rw [hsub1] at hcm
                    dsimp only at hcm
                    rw [if_pos hfree] at hcm
                    refine ⟨?_, ?_, ?_⟩
                    · cases happly2 : applyAutofix
                          (drainPhase s ct amount now).state.autofixRecords sub dk2 cfg with
                      | some recs2 =>
                          rw [happly2] at hcm
                          rw [hretry, hcm]
                          rfl
                      | none =>
                          rw [happly2] at hcm
                          rw [hretry, hcm]
                    · cases happly2 : applyAutofix
                          (drainPhase s ct amount now).state.autofixRecords sub dk2 cfg with
                      | some recs2 =>
                          rw [happly2] at hcm
                          rw [hretry, hcm]
                          rfl
                      | none =>
                          rw [happly2] at hcm
                          rw [hretry, hcm]
                    · intro hdk
                      subst hdk
                      rw [happly0] at hcm
                      rw [hretry, hcm, herr']
              · rw [if_neg hfree] at hcore
                by_cases hpayg : (sub.paygEnabled && ap) = true
                · rw [if_pos hpayg] at hcore
                  exact absurd hcore (by simp [finishOk, Prod.ext_iff])
                · rw [if_neg hpayg] at hcore
                  have hcore' : ((drainPhase s ct amount now).state,
                      (Except.error ConsumeError.allowanceExhausted :
                        Except ConsumeError ConsumeOk)) = (s1, Except.error err) := hcore
                  rw [Prod.mk.injEq] at hcore'
                  obtain ⟨hs1, herr⟩ := hcore'
                  have herr' : err = ConsumeError.allowanceExhausted := by
                    have h := herr
                    simp only [Except.error.injEq] at h
                    exact h.symm
                  have hs1' : s1 = (drainPhase s ct amount now).state := hs1.symm
                  subst hs1'
                  have hdp2 := drainPhase_exhausted_again s ct amount now now2 hle hwf hrem
                  have hfind1 : (ah.bind fun hh => List.find? (fun e => e.actionHash == hh)
                      (drainPhase s ct amount now).state.events) = none := hfind
                  have hretry : consume (drainPhase s ct amount now).state ct amount action
                      ah ap now2 dk2 cfg
                      = consumeCore (drainPhase s ct amount now).state ct amount action
                          ah ap now2 dk2 cfg := by
                    unfold consume
                    rw [if_neg hamt, hfind1]
                  have hcm := consumeCore_no_pools (drainPhase s ct amount now).state ct
                    amount action ah ap now2 dk2 cfg hamt' hdp2
                  have hsub1 : getPrimarySubscription (drainPhase s ct amount now).state
                      = some sub := by
                    rw [getPrimarySubscription_drainPhase]
                    exact hsub
                  rw [hsub1] at hcm
                  dsimp only at hcm
                  rw [if_neg hfree, if_neg hpayg] at hcm
                  refine ⟨?_, ?_, ?_⟩
                  · rw [hretry, hcm]
                  · rw [hretry, hcm]
                  · intro _
                    rw [hretry, hcm, herr']
        · unfold consumeCore at hcore
          rw [if_neg hrem] at hcore
          exact absurd hcore (by simp [finishOk, Prod.ext_iff])

/-- C4 witness: the failed 20-BC call on the 5 + 3 ledger retried on the
drained state fails identically without any further deduction. -/
theorem consume_failed_retry_no_double_charge_witness :
    consume exC3drained CreditType.BC 20 "a" none true 0 "d" 3
      = (exC3drained, Except.error ConsumeError.allowanceExhausted) :=
  (consume_failed_retry_no_double_charge exC3 exC3drained CreditType.BC 20 "a" none true
    0 0 "d" "d" 3 ConsumeError.allowanceExhausted (by unfold WF; decide) (by decide)
    (by decide)).2.2 rfl

end Billing
